import Mathlib

/-!
# ParaDroid: the face-avoiding camera controller of `sketch.js`

A shallow embedding of the control loop of `src/sketch.js`: the global
variables of the sketch become one record `Sketch`, every function that
mutates them becomes a function `Sketch → Sketch`, and the values the p5.js
runtime hands to the sketch on a frame (the clock, the random numbers) become
the fields of a `Tick`.

JavaScript numbers are idealised as exact rationals (`ℚ`), so every
definition below is executable.  The p5.js `sin` is not a rational function;
it is taken as a parameter `sin : ℚ → ℚ` of `draw`.

Where the rounding of JavaScript's double-precision arithmetic decides a
property (the factor by which a frame shrinks the distance to the target), the
AVOIDING frame is also embedded with every arithmetic operation rounded to the
nearest double (`roundDouble`, `lerpDouble`, `avoidingFrameDouble`).
-/

namespace ParaDroid

/-! ## Data model -/

/-- The camera states, `STATE` of `sketch.js` (lines 12-16). -/
inductive STATE where
  | SEARCHING
  | AVOIDING
  | SCANNING
  deriving DecidableEq, Repr

/-- The bounding box `face.box` of a detection, as read by `gotFaces`. -/
structure Box where
  x : ℚ
  y : ℚ
  width : ℚ
  height : ℚ
  deriving DecidableEq, Repr

/-- One entry of the batch the face detector delivers to `gotFaces`. -/
structure Face where
  box : Box
  deriving DecidableEq, Repr

/-- The mutable globals of `sketch.js` (lines 7-48), together with the list of
commands handed to `serial.write` so far. -/
structure Sketch where
  faces : List Face
  serialConnected : Bool
  currentState : STATE
  horizontalAngle : ℚ
  verticalAngle : ℚ
  targetHorizontalAngle : ℚ
  targetVerticalAngle : ℚ
  targetReachedTime : ℚ
  noFaceFrameCount : ℕ
  scanStartTime : ℚ
  lastSerialSendTime : ℚ
  written : List String
  deriving DecidableEq, Repr

/-- What the p5.js runtime supplies during one call of `draw`: the reading of
`millis()` (one reading for the whole call: the clock is read once per frame), the
value of `random(100)` (p5.js returns a number from 0 up to, not including, 100,
hence a non-negative rational), and the values of
`random(HORIZONTAL_MIN, HORIZONTAL_MAX)` and `random(VERTICAL_MIN, VERTICAL_MAX)`. -/
structure Tick where
  millis : ℚ
  random100 : ℚ≥0
  randomH : ℚ
  randomV : ℚ

/-! ## Constants (lines 27-49, and the canvas size of `setup`) -/

def POSITION_HOLD_TIME : ℚ := 1000
def NO_FACE_TIMEOUT : ℕ := 200
def SCAN_SPEED : ℚ := 5 / 10000
def SMOOTHING : ℚ := 9 / 10
def HORIZONTAL_MIN : ℚ := 50
def HORIZONTAL_MAX : ℚ := 130
def VERTICAL_MIN : ℚ := 0
def VERTICAL_MAX : ℚ := 35
def RANDOM_MOVE_CHANCE : ℚ := 0
def TARGET_REACHED_THRESHOLD : ℚ := 2
def SERIAL_SEND_INTERVAL : ℚ := 50
/-- The canvas width fixed by `createCanvas(640, 480)` in `setup`. -/
def width : ℚ := 640
/-- The canvas height fixed by `createCanvas(640, 480)` in `setup`. -/
def height : ℚ := 480

/-- The values of the globals when the sketch is loaded (lines 7-48). -/
def initial : Sketch where
  faces := []
  serialConnected := false
  currentState := STATE.SEARCHING
  horizontalAngle := 90
  verticalAngle := 30
  targetHorizontalAngle := 90
  targetVerticalAngle := 30
  targetReachedTime := 0
  noFaceFrameCount := 0
  scanStartTime := 0
  lastSerialSendTime := 0
  written := []

/-! ## The p5.js helpers used by the sketch -/

/-- The p5.js `lerp(start, stop, amt)`: `amt * (stop - start) + start`. -/
def lerp (start stop amt : ℚ) : ℚ := amt * (stop - start) + start

/-- The p5.js `constrain(n, low, high)`: `Math.max(Math.min(n, high), low)`. -/
def constrain (n low high : ℚ) : ℚ := max (min n high) low

/-- The p5.js `map(n, start1, stop1, start2, stop2)` without bounds clamping. -/
def map (n start1 stop1 start2 stop2 : ℚ) : ℚ :=
  (n - start1) / (stop1 - start1) * (stop2 - start2) + start2

/-! ## The functions of the sketch -/

/-- The function `calculateAvoidancePosition(faceX, faceY, faceSize)`, lines 284-332. -/
def calculateAvoidancePosition (faceX faceY _faceSize : ℚ) (s : Sketch) : Sketch :=
  let centerX := width / 2
  let centerY := height / 2
  let dirX := faceX - centerX
  let dirY := faceY - centerY
  let s1 : Sketch :=
    if dirX < 0 then { s with targetHorizontalAngle := HORIZONTAL_MAX }
    else { s with targetHorizontalAngle := HORIZONTAL_MIN }
  let s2 : Sketch :=
    if dirY < 0 then { s1 with targetVerticalAngle := VERTICAL_MIN }
    else { s1 with targetVerticalAngle := VERTICAL_MAX }
  let s3 : Sketch :=
    if s2.verticalAngle ≥ VERTICAL_MAX - 10 then { s2 with targetVerticalAngle := VERTICAL_MIN }
    else if s2.verticalAngle ≤ VERTICAL_MIN + 10 then
      { s2 with targetVerticalAngle := VERTICAL_MAX }
    else s2
  if s3.horizontalAngle ≥ HORIZONTAL_MAX - 20 then
    { s3 with targetHorizontalAngle := HORIZONTAL_MIN }
  else if s3.horizontalAngle ≤ HORIZONTAL_MIN + 20 then
    { s3 with targetHorizontalAngle := HORIZONTAL_MAX }
  else s3

/-- The callback `gotFaces(results)`, lines 142-166. -/
def gotFaces (results : List Face) (s : Sketch) : Sketch :=
  if s.currentState = STATE.SEARCHING ∨ s.currentState = STATE.SCANNING then
    let s1 : Sketch := { s with faces := results }
    match s1.faces with
    | face :: _ =>
      let bbox := face.box
      let faceX := bbox.x + bbox.width / 2
      let faceY := bbox.y + bbox.height / 2
      let s2 := calculateAvoidancePosition faceX faceY (bbox.width * bbox.height) s1
      { s2 with currentState := STATE.AVOIDING, noFaceFrameCount := 0 }
    | [] => s1
  else s

/-- The text `"H" + Math.floor(hPos) + "V" + Math.floor(vPos) + "\n"` of line 172. -/
def command (hPos vPos : ℚ) : String :=
  "H" ++ toString (Rat.floor hPos) ++ "V" ++ toString (Rat.floor vPos) ++ "\n"

/-- The function `sendPositionsToArduino(hPos, vPos)`, lines 168-176; `millis` is the
reading of the clock during the call. -/
def sendPositionsToArduino (millis hPos vPos : ℚ) (s : Sketch) : Sketch :=
  if s.serialConnected = true ∧ millis - s.lastSerialSendTime > SERIAL_SEND_INTERVAL then
    { s with written := s.written ++ [command hPos vPos], lastSerialSendTime := millis }
  else s

/-- The function `hasReachedTarget()`, lines 277-281. -/
def hasReachedTarget (s : Sketch) : Bool :=
  let hDiff := |s.horizontalAngle - s.targetHorizontalAngle|
  let vDiff := |s.verticalAngle - s.targetVerticalAngle|
  decide (hDiff < TARGET_REACHED_THRESHOLD) && decide (vDiff < TARGET_REACHED_THRESHOLD)

/-- The `case STATE.SEARCHING` of `draw`, lines 190-212. -/
def drawSearching (t : Tick) (s : Sketch) : Sketch :=
  if s.faces.length = 0 then
    let s1 : Sketch := { s with noFaceFrameCount := s.noFaceFrameCount + 1 }
    let s2 : Sketch :=
      if s1.noFaceFrameCount ≥ NO_FACE_TIMEOUT then
        { s1 with scanStartTime := t.millis, currentState := STATE.SCANNING }
      else s1
    if (t.random100 : ℚ) < RANDOM_MOVE_CHANCE then
      { s2 with
        targetHorizontalAngle := t.randomH
        targetVerticalAngle := t.randomV
        currentState := STATE.AVOIDING }
    else s2
  else { s with noFaceFrameCount := 0 }

/-- The two `lerp` assignments that open `case STATE.AVOIDING`, lines 219-220. -/
def moveTowardTarget (s : Sketch) : Sketch :=
  { s with
    horizontalAngle := lerp s.horizontalAngle s.targetHorizontalAngle SMOOTHING
    verticalAngle := lerp s.verticalAngle s.targetVerticalAngle SMOOTHING }

/-- The `case STATE.AVOIDING` of `draw`, lines 214-238. -/
def drawAvoiding (t : Tick) (s : Sketch) : Sketch :=
  let s1 := moveTowardTarget s
  if hasReachedTarget s1 = true then
    if s1.targetReachedTime = 0 then { s1 with targetReachedTime := t.millis }
    else if t.millis - s1.targetReachedTime ≥ POSITION_HOLD_TIME then
      { s1 with
        currentState := STATE.SEARCHING
        noFaceFrameCount := 0
        targetReachedTime := 0 }
    else s1
  else { s1 with targetReachedTime := 0 }

/-- The `case STATE.SCANNING` of `draw`, lines 240-262. -/
def drawScanning (sin : ℚ → ℚ) (t : Tick) (s : Sketch) : Sketch :=
  let scanProgress := (t.millis - s.scanStartTime) * SCAN_SPEED
  let scanPosition := sin scanProgress
  let s1 : Sketch :=
    { s with targetHorizontalAngle := map scanPosition (-1) 1 HORIZONTAL_MIN HORIZONTAL_MAX }
  let s2 : Sketch := { s1 with targetVerticalAngle := 45 }
  let s3 : Sketch :=
    { s2 with
      horizontalAngle := lerp s2.horizontalAngle s2.targetHorizontalAngle (SMOOTHING * (1 / 2)) }
  let s4 : Sketch :=
    { s3 with
      verticalAngle := lerp s3.verticalAngle s3.targetVerticalAngle (SMOOTHING * (1 / 2)) }
  if s4.faces.length > 0 then
    { s4 with currentState := STATE.SEARCHING, noFaceFrameCount := 0 }
  else s4

/-- The `switch (currentState)` of `draw`, lines 189-263. -/
def stateMachine (sin : ℚ → ℚ) (t : Tick) (s : Sketch) : Sketch :=
  match s.currentState with
  | STATE.SEARCHING => drawSearching t s
  | STATE.AVOIDING => drawAvoiding t s
  | STATE.SCANNING => drawScanning sin t s

/-- The two `constrain` assignments of `draw`, lines 266-267. -/
def clampAngles (s : Sketch) : Sketch :=
  { s with
    horizontalAngle := constrain s.horizontalAngle HORIZONTAL_MIN HORIZONTAL_MAX
    verticalAngle := constrain s.verticalAngle VERTICAL_MIN VERTICAL_MAX }

/-- The function `draw()`, lines 178-274, without the rendering calls: the state
machine, the clamping of the pose, and the command sent to the servos. -/
def draw (sin : ℚ → ℚ) (t : Tick) (s : Sketch) : Sketch :=
  let s1 := clampAngles (stateMachine sin t s)
  sendPositionsToArduino t.millis s1.horizontalAngle s1.verticalAngle s1

/-- The handler `portOpen()`, lines 88-94. -/
def portOpen (millis : ℚ) (s : Sketch) : Sketch :=
  let s1 : Sketch := { s with serialConnected := true }
  sendPositionsToArduino millis s1.horizontalAngle s1.verticalAngle s1

/-- The handler `portClose()`, lines 104-107. -/
def portClose (s : Sketch) : Sketch := { s with serialConnected := false }

/-- The handler `serialError(err)`, lines 96-102 (the reconnection timer apart). -/
def serialError (s : Sketch) : Sketch := { s with serialConnected := false }

/-! ## Runs of the sketch -/

/-- The calls the browser can make into the sketch once it is set up. -/
inductive Event where
  | draw (t : Tick)
  | gotFaces (results : List Face)
  | portOpen (millis : ℚ)
  | portClose
  | serialError

/-- The effect of one call on the globals. -/
def step (sin : ℚ → ℚ) (s : Sketch) : Event → Sketch
  | Event.draw t => draw sin t s
  | Event.gotFaces results => gotFaces results s
  | Event.portOpen millis => portOpen millis s
  | Event.portClose => portClose s
  | Event.serialError => serialError s

/-- The globals after a sequence of calls, the earliest first. -/
def run (sin : ℚ → ℚ) (s : Sketch) (events : List Event) : Sketch :=
  events.foldl (step sin) s

/-- A state the sketch can be in after some sequence of calls from `initial`. -/
def Reachable (sin : ℚ → ℚ) (s : Sketch) : Prop :=
  ∃ events : List Event, run sin initial events = s

/-- The call is a frame, a call of `draw`. -/
def Event.isDraw : Event → Bool
  | Event.draw _ => true
  | _ => false

/-- The call hands a non-empty batch of detections to `gotFaces`. -/
def Event.deliversDetection : Event → Bool
  | Event.gotFaces (_ :: _) => true
  | _ => false

/-- The number of frames among the calls. -/
def drawCount (events : List Event) : ℕ := (events.filter Event.isDraw).length

/-- The pose lies within the axis limits. -/
def PoseInBounds (s : Sketch) : Prop :=
  (HORIZONTAL_MIN ≤ s.horizontalAngle ∧ s.horizontalAngle ≤ HORIZONTAL_MAX) ∧
    (VERTICAL_MIN ≤ s.verticalAngle ∧ s.verticalAngle ≤ VERTICAL_MAX)

/-- The target lies within the axis limits. -/
def TargetInBounds (s : Sketch) : Prop :=
  (HORIZONTAL_MIN ≤ s.targetHorizontalAngle ∧ s.targetHorizontalAngle ≤ HORIZONTAL_MAX) ∧
    (VERTICAL_MIN ≤ s.targetVerticalAngle ∧ s.targetVerticalAngle ≤ VERTICAL_MAX)

/-- The camera is AVOIDING and holds its position: the clamped pose is within the
threshold of an in-bounds target and the hold timer reads `t0`. -/
def Holding (t0 : ℚ) (s : Sketch) : Prop :=
  s.currentState = STATE.AVOIDING ∧ s.targetReachedTime = t0 ∧ TargetInBounds s ∧
    hasReachedTarget s = true

/-! ## Sample states and inputs -/

/-- A pose away from every extreme: the initial state with the camera at (90, 20). -/
def midPose : Sketch := { initial with verticalAngle := 20 }

/-- The initial state with the camera in the far corner (130, 35). -/
def cornerPose : Sketch := { initial with horizontalAngle := 130, verticalAngle := 35 }

/-- A detection whose box is centred left of and above the centre of the frame. -/
def faceUpperLeft : Face := { box := { x := 100, y := 80, width := 60, height := 60 } }

/-- A detection with an empty box outside the frame. -/
def faceDegenerate : Face := { box := { x := -40, y := 1000, width := 0, height := 0 } }

/-- The initial state while the camera sweeps. -/
def scanningPose : Sketch := { initial with currentState := STATE.SCANNING }

/-- A rational stand-in for the sine in examples: odd, 0 at 0, with values in [-1, 1]. -/
def sampleSin (x : ℚ) : ℚ := 2 * x / (1 + x ^ 2)

/-- A frame at clock reading 1000 with `random(100) = 42`. -/
def sampleTick : Tick := { millis := 1000, random100 := 42, randomH := 77, randomV := 11 }

/-- A frame at clock reading `m`. -/
def tickAt (m : ℚ) : Tick := { sampleTick with millis := m }

/-- The initial state after the detection `faceUpperLeft`: AVOIDING towards (130, 0). -/
def avoidStart : Sketch :=
  { initial with
    faces := [faceUpperLeft]
    currentState := STATE.AVOIDING
    targetHorizontalAngle := 130
    targetVerticalAngle := 0 }

/-- The state one frame after `avoidStart`: the pose (126, 3) is not yet within the
threshold of the target (130, 0). -/
def approachState : Sketch := { avoidStart with horizontalAngle := 126, verticalAngle := 3 }

/-- The state one frame after `approachState`, drawn at clock reading 1100: the pose is
within the threshold and the hold timer has started. -/
def holdState : Sketch :=
  { avoidStart with
    horizontalAngle := 648 / 5
    verticalAngle := 3 / 10
    targetReachedTime := 1100 }

/-- The state one frame after `holdState`, drawn at clock reading 2100: back to SEARCHING,
with the detection that started the avoidance still on record in `faces`. -/
def returnedState : Sketch :=
  { initial with
    faces := [faceUpperLeft]
    horizontalAngle := 3249 / 25
    verticalAngle := 3 / 100
    targetHorizontalAngle := 130
    targetVerticalAngle := 0 }

/-- The initial state with the serial port open. -/
def connectedState : Sketch := { initial with serialConnected := true }

/-- A run of 199 frames mixed with an empty batch of detections and a port opening. -/
def quietFrames : List Event :=
  Event.gotFaces [] :: Event.portOpen 10 :: List.replicate 199 (Event.draw sampleTick)

/-- The initial state after 200 frames without a detection: SCANNING. -/
def scanState : Sketch := run sampleSin initial (quietFrames ++ [Event.draw sampleTick])

/-- A scan entered at clock reading 2000. -/
def laterScan : Sketch := { scanningPose with scanStartTime := 2000 }

/-- A scan that starts with the camera looking down: the pose is (90, 0). -/
def lowScan : Sketch := { scanningPose with verticalAngle := 0 }

/-! ## The specification's wording, for comparison with the code -/

/-- Truncation toward zero of a number, as an integer. -/
def truncate (x : ℚ) : ℤ := if 0 ≤ x then Rat.floor x else Rat.ceil x

/-- The outbound command as the specification words it (sections 4.5 and 6): the text
`H<int>V<int>` and a newline, where each `<int>` is the truncated angle. -/
def specCommand (horizontal vertical : ℚ) : String :=
  "H" ++ toString (truncate horizontal) ++ "V" ++ toString (truncate vertical) ++ "\n"

/-- The scan generator as the specification words it (section 4.3):
`H_MID + H_RANGE * sin(elapsedMs * SCAN_SPEED)` with `H_MID = 90` and `H_RANGE = 40`. -/
def computeScanTarget (sin : ℚ → ℚ) (elapsedMs : ℚ) : ℚ :=
  90 + 40 * sin (elapsedMs * SCAN_SPEED)

/-- The AVOIDING tick as the specification words it (section 4.4): smooth towards the
target, clamp, and test the clamped pose against the threshold. -/
def avoidingTickSpec (t : Tick) (s : Sketch) : Sketch :=
  let s1 := clampAngles (moveTowardTarget s)
  if hasReachedTarget s1 = true then
    if s1.targetReachedTime = 0 then { s1 with targetReachedTime := t.millis }
    else if t.millis - s1.targetReachedTime ≥ POSITION_HOLD_TIME then
      { s1 with
        currentState := STATE.SEARCHING
        noFaceFrameCount := 0
        targetReachedTime := 0 }
    else s1
  else { s1 with targetReachedTime := 0 }

/-! ## The commands sent over a run -/

/-- The clock readings of the calls, among `events` made from state `s`, that handed a
command to the serial port, the earliest call first.  Only `draw` and `portOpen` call
`sendPositionsToArduino`. -/
def sendTimes (sin : ℚ → ℚ) : Sketch → List Event → List ℚ
  | _, [] => []
  | s, Event.draw t :: rest =>
    (if (draw sin t s).written ≠ s.written then [t.millis] else []) ++
      sendTimes sin (draw sin t s) rest
  | s, Event.portOpen millis :: rest =>
    (if (portOpen millis s).written ≠ s.written then [millis] else []) ++
      sendTimes sin (portOpen millis s) rest
  | s, Event.gotFaces results :: rest => sendTimes sin (gotFaces results s) rest
  | s, Event.portClose :: rest => sendTimes sin (portClose s) rest
  | s, Event.serialError :: rest => sendTimes sin (serialError s) rest

/-- Two commands, the first sent at `a` and the second at `b`, are more than
`SERIAL_SEND_INTERVAL` apart. -/
def Spaced (a b : ℚ) : Prop := b - a > SERIAL_SEND_INTERVAL

/-- The number of commands sent within the window of 1000 ms that starts at `a`. -/
def sentInWindow (a : ℚ) (times : List ℚ) : ℕ :=
  (times.filter (fun m => decide (a ≤ m ∧ m ≤ a + 1000))).length

/-! ## Double-precision arithmetic

JavaScript evaluates `lerp` and `hasReachedTarget` in IEEE 754 binary64.  The doubles are
rationals, and each operation returns the double nearest to the exact result, ties going
to the even significand. -/

/-- The integer nearest to `q`, a tie going to the even one. -/
def roundHalfEven (q : ℚ) : ℤ :=
  let f := ⌊q⌋
  let r := q - f
  if r < 1 / 2 then f
  else if 1 / 2 < r then f + 1
  else if f % 2 = 0 then f else f + 1

/-- The double nearest to `x` (round to nearest, ties to even): a multiple of
`2 ^ (e - 52)` where `2 ^ e ≤ |x| < 2 ^ (e + 1)`.  The exponent range is not bounded, which
is the IEEE 754 rounding for `2 ^ (-1022) ≤ |x| < 2 ^ 1024`. -/
def roundDouble (x : ℚ) : ℚ :=
  if x = 0 then 0
  else roundHalfEven (x / 2 ^ (Int.log 2 |x| - 52)) * 2 ^ (Int.log 2 |x| - 52)

/-- The double that the literal `0.9` of line 38 denotes. -/
def SMOOTHING_DOUBLE : ℚ := roundDouble SMOOTHING

/-- The p5.js `lerp(start, stop, amt)`, `amt * (stop - start) + start`, as JavaScript
evaluates it: the subtraction, the product and the sum are each rounded to a double. -/
def lerpDouble (start stop amt : ℚ) : ℚ :=
  roundDouble (roundDouble (amt * roundDouble (stop - start)) + start)

/-- The two `lerp` assignments of lines 219-220 in double arithmetic. -/
def moveTowardTargetDouble (s : Sketch) : Sketch :=
  { s with
    horizontalAngle := lerpDouble s.horizontalAngle s.targetHorizontalAngle SMOOTHING_DOUBLE
    verticalAngle := lerpDouble s.verticalAngle s.targetVerticalAngle SMOOTHING_DOUBLE }

/-- The function `hasReachedTarget()`, lines 277-281, in double arithmetic: the two
differences are rounded; `abs` and the comparisons with 2 are exact. -/
def hasReachedTargetDouble (s : Sketch) : Bool :=
  let hDiff := |roundDouble (s.horizontalAngle - s.targetHorizontalAngle)|
  let vDiff := |roundDouble (s.verticalAngle - s.targetVerticalAngle)|
  decide (hDiff < TARGET_REACHED_THRESHOLD) && decide (vDiff < TARGET_REACHED_THRESHOLD)

/-- The `case STATE.AVOIDING` of `draw`, lines 214-238, in double arithmetic. -/
def drawAvoidingDouble (t : Tick) (s : Sketch) : Sketch :=
  let s1 := moveTowardTargetDouble s
  if hasReachedTargetDouble s1 = true then
    if s1.targetReachedTime = 0 then { s1 with targetReachedTime := t.millis }
    else if roundDouble (t.millis - s1.targetReachedTime) ≥ POSITION_HOLD_TIME then
      { s1 with
        currentState := STATE.SEARCHING
        noFaceFrameCount := 0
        targetReachedTime := 0 }
    else s1
  else { s1 with targetReachedTime := 0 }

/-- A frame drawn while AVOIDING, in double arithmetic: the AVOIDING case followed by the
two `constrain` assignments of lines 266-267 (`Math.min` and `Math.max` do not round).
The command sent afterwards does not change the pose, the target, the state or the
timer. -/
def avoidingFrameDouble (t : Tick) (s : Sketch) : Sketch :=
  clampAngles (drawAvoidingDouble t s)

/-! ## Basic facts -/

theorem constrain_bounds (n low high : ℚ) (h : low ≤ high) :
    low ≤ constrain n low high ∧ constrain n low high ≤ high := by
  unfold constrain
  exact ⟨le_max_right _ _, max_le (min_le_right _ _) h⟩

theorem sendPositionsToArduino_pose (m h v : ℚ) (s : Sketch) :
    (sendPositionsToArduino m h v s).horizontalAngle = s.horizontalAngle ∧
      (sendPositionsToArduino m h v s).verticalAngle = s.verticalAngle := by
  unfold sendPositionsToArduino
  split <;> exact ⟨rfl, rfl⟩

theorem draw_poseInBounds (sin : ℚ → ℚ) (t : Tick) (s : Sketch) :
    PoseInBounds (draw sin t s) := by
  unfold PoseInBounds draw
  simp only [(sendPositionsToArduino_pose _ _ _ _).1, (sendPositionsToArduino_pose _ _ _ _).2]
  simp only [clampAngles]
  exact ⟨constrain_bounds _ _ _ (by norm_num [HORIZONTAL_MIN, HORIZONTAL_MAX]),
    constrain_bounds _ _ _ (by norm_num [VERTICAL_MIN, VERTICAL_MAX])⟩

theorem calculateAvoidancePosition_targetH (faceX faceY faceSize : ℚ) (s : Sketch) :
    (calculateAvoidancePosition faceX faceY faceSize s).targetHorizontalAngle =
      if 110 ≤ s.horizontalAngle then 50
      else if s.horizontalAngle ≤ 70 then 130
      else if faceX < 320 then 130 else 50 := by
  simp only [calculateAvoidancePosition, width, HORIZONTAL_MAX, HORIZONTAL_MIN, ge_iff_le]
  norm_num
  split_ifs <;> rfl

theorem calculateAvoidancePosition_targetV (faceX faceY faceSize : ℚ) (s : Sketch) :
    (calculateAvoidancePosition faceX faceY faceSize s).targetVerticalAngle =
      if 25 ≤ s.verticalAngle then 0
      else if s.verticalAngle ≤ 10 then 35
      else if faceY < 240 then 0 else 35 := by
  simp only [calculateAvoidancePosition, height, VERTICAL_MAX, VERTICAL_MIN, ge_iff_le]
  norm_num
  split_ifs <;> rfl

theorem calculateAvoidancePosition_frame (faceX faceY faceSize : ℚ) (s : Sketch) :
    calculateAvoidancePosition faceX faceY faceSize s =
      { s with
        targetHorizontalAngle :=
          (calculateAvoidancePosition faceX faceY faceSize s).targetHorizontalAngle
        targetVerticalAngle :=
          (calculateAvoidancePosition faceX faceY faceSize s).targetVerticalAngle } := by
  simp only [calculateAvoidancePosition]
  split_ifs <;> rfl

theorem step_poseInBounds (sin : ℚ → ℚ) (s : Sketch) (e : Event) (h : PoseInBounds s) :
    PoseInBounds (step sin s e) := by
  cases e with
  | draw t => exact draw_poseInBounds sin t s
  | gotFaces results =>
    simp only [step, gotFaces]
    split_ifs
    · cases results with
      | nil => exact h
      | cons face rest =>
        simp only [PoseInBounds]
        rw [calculateAvoidancePosition_frame]
        exact h
    · exact h
  | portOpen millis =>
    simp only [step, portOpen, PoseInBounds,
      (sendPositionsToArduino_pose _ _ _ _).1, (sendPositionsToArduino_pose _ _ _ _).2]
    exact h
  | portClose => exact h
  | serialError => exact h

theorem run_invariant (sin : ℚ → ℚ) (P : Sketch → Prop)
    (hstep : ∀ s e, P s → P (step sin s e)) (events : List Event) :
    ∀ s, P s → P (run sin s events) := by
  induction events with
  | nil => intro s hs; exact hs
  | cons e rest ih => intro s hs; exact ih (step sin s e) (hstep s e hs)

theorem gotFaces_avoiding (results : List Face) (s : Sketch)
    (h : s.currentState = STATE.AVOIDING) : gotFaces results s = s := by
  simp [gotFaces, h]

theorem gotFaces_cons (face : Face) (rest : List Face) (s : Sketch)
    (h : s.currentState = STATE.SEARCHING ∨ s.currentState = STATE.SCANNING) :
    gotFaces (face :: rest) s =
      { s with
        faces := face :: rest
        targetHorizontalAngle :=
          (calculateAvoidancePosition (face.box.x + face.box.width / 2)
            (face.box.y + face.box.height / 2) (face.box.width * face.box.height)
            s).targetHorizontalAngle
        targetVerticalAngle :=
          (calculateAvoidancePosition (face.box.x + face.box.width / 2)
            (face.box.y + face.box.height / 2) (face.box.width * face.box.height)
            s).targetVerticalAngle
        currentState := STATE.AVOIDING
        noFaceFrameCount := 0 } := by
  simp only [gotFaces, if_pos h]
  rw [calculateAvoidancePosition_frame]
  simp only [calculateAvoidancePosition_targetH, calculateAvoidancePosition_targetV]

theorem random_move_disabled (t : Tick) : ¬ ((t.random100 : ℚ) < RANDOM_MOVE_CHANCE) := by
  simp only [RANDOM_MOVE_CHANCE, not_lt]
  exact t.random100.coe_nonneg

theorem drawSearching_no_face (t : Tick) (s : Sketch) (hf : s.faces = []) :
    drawSearching t s =
      if NO_FACE_TIMEOUT ≤ s.noFaceFrameCount + 1 then
        { s with
          noFaceFrameCount := s.noFaceFrameCount + 1
          scanStartTime := t.millis
          currentState := STATE.SCANNING }
      else { s with noFaceFrameCount := s.noFaceFrameCount + 1 } := by
  simp only [drawSearching, hf, List.length_nil, if_true, if_neg (random_move_disabled t),
    ge_iff_le]

theorem drawSearching_face (t : Tick) (s : Sketch) (hf : s.faces ≠ []) :
    drawSearching t s = { s with noFaceFrameCount := 0 } := by
  have h : ¬ (s.faces.length = 0) := by
    intro h0
    exact hf (List.length_eq_zero.mp h0)
  simp only [drawSearching, if_neg h]

theorem draw_frame (sin : ℚ → ℚ) (t : Tick) (s : Sketch) :
    (draw sin t s).currentState = (stateMachine sin t s).currentState ∧
      (draw sin t s).faces = (stateMachine sin t s).faces ∧
      (draw sin t s).noFaceFrameCount = (stateMachine sin t s).noFaceFrameCount ∧
      (draw sin t s).scanStartTime = (stateMachine sin t s).scanStartTime ∧
      (draw sin t s).targetHorizontalAngle = (stateMachine sin t s).targetHorizontalAngle ∧
      (draw sin t s).targetVerticalAngle = (stateMachine sin t s).targetVerticalAngle ∧
      (draw sin t s).targetReachedTime = (stateMachine sin t s).targetReachedTime := by
  simp only [draw, sendPositionsToArduino]
  split_ifs <;> simp [clampAngles]

theorem stateMachine_searching (sin : ℚ → ℚ) (t : Tick) (s : Sketch)
    (h : s.currentState = STATE.SEARCHING) : stateMachine sin t s = drawSearching t s := by
  simp only [stateMachine, h]

theorem stateMachine_avoiding (sin : ℚ → ℚ) (t : Tick) (s : Sketch)
    (h : s.currentState = STATE.AVOIDING) : stateMachine sin t s = drawAvoiding t s := by
  simp only [stateMachine, h]

theorem stateMachine_scanning (sin : ℚ → ℚ) (t : Tick) (s : Sketch)
    (h : s.currentState = STATE.SCANNING) : stateMachine sin t s = drawScanning sin t s := by
  simp only [stateMachine, h]

/-- While SEARCHING with no face on record, a call that delivers no detection keeps the
state SEARCHING with no face on record and counts the frames, as long as the count stays
below the timeout. -/
theorem step_searching_no_face (sin : ℚ → ℚ) (s : Sketch) (e : Event)
    (hS : s.currentState = STATE.SEARCHING) (hf : s.faces = [])
    (he : e.deliversDetection = false)
    (hc : s.noFaceFrameCount + drawCount [e] < NO_FACE_TIMEOUT) :
    (step sin s e).currentState = STATE.SEARCHING ∧ (step sin s e).faces = [] ∧
      (step sin s e).noFaceFrameCount = s.noFaceFrameCount + drawCount [e] := by
  cases e with
  | draw t =>
    simp only [drawCount, List.filter, Event.isDraw, List.length_singleton] at hc
    obtain ⟨h1, h2, h3, -⟩ := draw_frame sin t s
    simp only [step, h1, h2, h3, stateMachine_searching sin t s hS,
      drawSearching_no_face t s hf, if_neg (not_le.mpr hc)]
    simp [hS, hf, drawCount, Event.isDraw]
  | gotFaces results =>
    cases results with
    | nil => simp [step, gotFaces, hS, hf, drawCount, Event.isDraw]
    | cons face rest => simp [Event.deliversDetection] at he
  | portOpen millis =>
    simp only [step, portOpen, sendPositionsToArduino]
    split_ifs <;> simp [hS, hf, drawCount, Event.isDraw]
  | portClose => simp [step, portClose, hS, hf, drawCount, Event.isDraw]
  | serialError => simp [step, serialError, hS, hf, drawCount, Event.isDraw]

theorem drawCount_cons (e : Event) (rest : List Event) :
    drawCount (e :: rest) = drawCount [e] + drawCount rest := by
  cases e <;> simp [drawCount, List.filter, Event.isDraw]
  omega

theorem drawCount_replicate_draw (n : ℕ) (t : Tick) :
    drawCount (List.replicate n (Event.draw t)) = n := by
  induction n with
  | zero => rfl
  | succ k ih =>
    rw [List.replicate_succ, drawCount_cons, ih]
    simp [drawCount, Event.isDraw]
    omega

theorem run_searching_no_face (sin : ℚ → ℚ) (events : List Event) :
    ∀ s : Sketch, s.currentState = STATE.SEARCHING → s.faces = [] →
      (∀ e ∈ events, e.deliversDetection = false) →
      s.noFaceFrameCount + drawCount events < NO_FACE_TIMEOUT →
      (run sin s events).currentState = STATE.SEARCHING ∧ (run sin s events).faces = [] ∧
        (run sin s events).noFaceFrameCount = s.noFaceFrameCount + drawCount events := by
  induction events with
  | nil => intro s hS hf _ _; exact ⟨hS, hf, by simp [run, drawCount]⟩
  | cons e rest ih =>
    intro s hS hf he hc
    rw [drawCount_cons] at hc
    obtain ⟨h1, h2, h3⟩ := step_searching_no_face sin s e hS hf
      (he e (List.mem_cons_self _ _)) (by omega)
    obtain ⟨k1, k2, k3⟩ := ih (step sin s e) h1 h2
      (fun e' he' => he e' (List.mem_cons_of_mem _ he')) (by omega)
    refine ⟨k1, k2, ?_⟩
    rw [drawCount_cons]
    simp only [run, List.foldl_cons] at k3 ⊢
    omega

/-! ### Holding the position in AVOIDING -/

theorem hasReachedTarget_iff (s : Sketch) :
    hasReachedTarget s = true ↔
      |s.horizontalAngle - s.targetHorizontalAngle| < 2 ∧
        |s.verticalAngle - s.targetVerticalAngle| < 2 := by
  simp [hasReachedTarget, TARGET_REACHED_THRESHOLD]

theorem lerp_smoothing_dist (a target : ℚ) :
    |lerp a target SMOOTHING - target| = |a - target| / 10 := by
  have h : lerp a target SMOOTHING - target = (a - target) / 10 := by
    simp only [lerp, SMOOTHING]
    ring
  rw [h, abs_div]
  norm_num

theorem constrain_dist_le (p target low high : ℚ) (h1 : low ≤ target) (h2 : target ≤ high) :
    |constrain p low high - target| ≤ |p - target| := by
  simp only [constrain, max_def, min_def]
  split_ifs <;> rw [abs_le] <;> constructor <;>
    rcases abs_cases (p - target) with ⟨h, _⟩ | ⟨h, _⟩ <;> rw [h] <;> linarith

theorem sendPositionsToArduino_frame (m h v : ℚ) (s : Sketch) :
    (sendPositionsToArduino m h v s).currentState = s.currentState ∧
      (sendPositionsToArduino m h v s).faces = s.faces ∧
      (sendPositionsToArduino m h v s).noFaceFrameCount = s.noFaceFrameCount ∧
      (sendPositionsToArduino m h v s).scanStartTime = s.scanStartTime ∧
      (sendPositionsToArduino m h v s).targetHorizontalAngle = s.targetHorizontalAngle ∧
      (sendPositionsToArduino m h v s).targetVerticalAngle = s.targetVerticalAngle ∧
      (sendPositionsToArduino m h v s).targetReachedTime = s.targetReachedTime := by
  simp only [sendPositionsToArduino]
  split_ifs <;> simp

theorem draw_pose (sin : ℚ → ℚ) (t : Tick) (s : Sketch) :
    (draw sin t s).horizontalAngle =
        constrain (stateMachine sin t s).horizontalAngle HORIZONTAL_MIN HORIZONTAL_MAX ∧
      (draw sin t s).verticalAngle =
        constrain (stateMachine sin t s).verticalAngle VERTICAL_MIN VERTICAL_MAX := by
  simp only [draw, (sendPositionsToArduino_pose _ _ _ _).1,
    (sendPositionsToArduino_pose _ _ _ _).2, clampAngles, and_self]

theorem drawAvoiding_frame (t : Tick) (s : Sketch) :
    (drawAvoiding t s).horizontalAngle =
        lerp s.horizontalAngle s.targetHorizontalAngle SMOOTHING ∧
      (drawAvoiding t s).verticalAngle = lerp s.verticalAngle s.targetVerticalAngle SMOOTHING ∧
      (drawAvoiding t s).targetHorizontalAngle = s.targetHorizontalAngle ∧
      (drawAvoiding t s).targetVerticalAngle = s.targetVerticalAngle := by
  simp only [drawAvoiding, moveTowardTarget]
  split_ifs <;> simp

/-- After a frame in AVOIDING the clamped pose is within the threshold of an in-bounds
target as soon as the pose was within it after the two `lerp` steps of the frame. -/
theorem draw_avoiding_reached (sin : ℚ → ℚ) (t : Tick) (s : Sketch)
    (hA : s.currentState = STATE.AVOIDING) (hT : TargetInBounds s)
    (hR : hasReachedTarget (moveTowardTarget s) = true) :
    TargetInBounds (draw sin t s) ∧ hasReachedTarget (draw sin t s) = true := by
  obtain ⟨-, -, -, -, k5, k6, -⟩ := draw_frame sin t s
  obtain ⟨p1, p2⟩ := draw_pose sin t s
  obtain ⟨a1, a2, a3, a4⟩ := drawAvoiding_frame t s
  rw [stateMachine_avoiding sin t s hA] at k5 k6 p1 p2
  rw [hasReachedTarget_iff] at hR ⊢
  simp only [moveTowardTarget] at hR
  simp only [TargetInBounds, k5, k6, p1, p2, a1, a2, a3, a4]
  refine ⟨hT, ?_, ?_⟩
  · exact lt_of_le_of_lt (constrain_dist_le _ _ _ _ hT.1.1 hT.1.2) hR.1
  · exact lt_of_le_of_lt (constrain_dist_le _ _ _ _ hT.2.1 hT.2.2) hR.2

/-- One `lerp` step keeps a pose that is within the threshold within the threshold. -/
theorem moveTowardTarget_reached (s : Sketch) (hR : hasReachedTarget s = true) :
    hasReachedTarget (moveTowardTarget s) = true := by
  rw [hasReachedTarget_iff] at hR ⊢
  simp only [moveTowardTarget, lerp_smoothing_dist]
  constructor
  · linarith [hR.1, abs_nonneg (s.horizontalAngle - s.targetHorizontalAngle)]
  · linarith [hR.2, abs_nonneg (s.verticalAngle - s.targetVerticalAngle)]

/-- The first frame at which the pose is within the threshold starts the hold timer. -/
theorem draw_starts_hold (sin : ℚ → ℚ) (t : Tick) (s : Sketch)
    (hA : s.currentState = STATE.AVOIDING) (hT : TargetInBounds s)
    (h0 : s.targetReachedTime = 0)
    (hR : hasReachedTarget (moveTowardTarget s) = true) :
    Holding t.millis (draw sin t s) := by
  obtain ⟨k1, -, -, -, -, -, k7⟩ := draw_frame sin t s
  obtain ⟨r1, r2⟩ := draw_avoiding_reached sin t s hA hT hR
  have h0' : (moveTowardTarget s).targetReachedTime = 0 := h0
  refine ⟨?_, ?_, r1, r2⟩
  · rw [k1, stateMachine_avoiding sin t s hA]
    simp only [drawAvoiding, hR, if_true, if_pos h0']
    exact hA
  · rw [k7, stateMachine_avoiding sin t s hA]
    simp only [drawAvoiding, hR, if_true, if_pos h0']

/-- While the hold time has not elapsed, a frame keeps the camera holding. -/
theorem draw_keeps_hold (sin : ℚ → ℚ) (t : Tick) (s : Sketch) (t0 : ℚ)
    (hH : Holding t0 s) (hne : t0 ≠ 0) (hlt : t.millis - t0 < POSITION_HOLD_TIME) :
    Holding t0 (draw sin t s) := by
  obtain ⟨hA, hT0, hT, hR⟩ := hH
  have hR' := moveTowardTarget_reached s hR
  obtain ⟨k1, -, -, -, -, -, k7⟩ := draw_frame sin t s
  obtain ⟨r1, r2⟩ := draw_avoiding_reached sin t s hA hT hR'
  have h0' : ¬ ((moveTowardTarget s).targetReachedTime = 0) := by
    show ¬ (s.targetReachedTime = 0)
    rw [hT0]; exact hne
  have h1' : ¬ (t.millis - (moveTowardTarget s).targetReachedTime ≥ POSITION_HOLD_TIME) := by
    show ¬ (t.millis - s.targetReachedTime ≥ POSITION_HOLD_TIME)
    rw [hT0]; exact not_le.mpr hlt
  refine ⟨?_, ?_, r1, r2⟩
  · rw [k1, stateMachine_avoiding sin t s hA]
    simp only [drawAvoiding, hR', if_true, if_neg h0', if_neg h1']
    exact hA
  · rw [k7, stateMachine_avoiding sin t s hA]
    simp only [drawAvoiding, hR', if_true, if_neg h0', if_neg h1']
    exact hT0

/-- Once the hold time has elapsed, the next frame returns to SEARCHING. -/
theorem draw_ends_hold (sin : ℚ → ℚ) (t : Tick) (s : Sketch) (t0 : ℚ)
    (hH : Holding t0 s) (hne : t0 ≠ 0) (hge : POSITION_HOLD_TIME ≤ t.millis - t0) :
    (draw sin t s).currentState = STATE.SEARCHING ∧ (draw sin t s).noFaceFrameCount = 0 ∧
      (draw sin t s).targetReachedTime = 0 := by
  obtain ⟨hA, hT0, hT, hR⟩ := hH
  have hR' := moveTowardTarget_reached s hR
  obtain ⟨k1, -, k3, -, -, -, k7⟩ := draw_frame sin t s
  have h0' : ¬ ((moveTowardTarget s).targetReachedTime = 0) := by
    show ¬ (s.targetReachedTime = 0)
    rw [hT0]; exact hne
  have h1' : t.millis - (moveTowardTarget s).targetReachedTime ≥ POSITION_HOLD_TIME := by
    show t.millis - s.targetReachedTime ≥ POSITION_HOLD_TIME
    rw [hT0]; exact hge
  rw [k1, k3, k7, stateMachine_avoiding sin t s hA]
  simp only [drawAvoiding, hR', if_true, if_neg h0', if_pos h1', and_self]

/-- A call other than a frame leaves a holding camera holding. -/
theorem step_keeps_hold (sin : ℚ → ℚ) (s : Sketch) (e : Event) (t0 : ℚ)
    (hH : Holding t0 s) (hne : t0 ≠ 0)
    (hlt : ∀ t : Tick, e = Event.draw t → t.millis - t0 < POSITION_HOLD_TIME) :
    Holding t0 (step sin s e) := by
  cases e with
  | draw t => exact draw_keeps_hold sin t s t0 hH hne (hlt t rfl)
  | gotFaces results =>
    simp only [step, gotFaces_avoiding results s hH.1]
    exact hH
  | portOpen millis =>
    obtain ⟨hA, hT0, hT, hR⟩ := hH
    obtain ⟨k1, -, -, -, k5, k6, k7⟩ := sendPositionsToArduino_frame millis s.horizontalAngle
      s.verticalAngle { s with serialConnected := true }
    obtain ⟨p1, p2⟩ := sendPositionsToArduino_pose millis s.horizontalAngle
      s.verticalAngle { s with serialConnected := true }
    rw [hasReachedTarget_iff] at hR
    simp only [step, portOpen, Holding, TargetInBounds, hasReachedTarget_iff, k1, k5, k6, k7,
      p1, p2]
    exact ⟨hA, hT0, hT, hR⟩
  | portClose => exact hH
  | serialError => exact hH

theorem run_keeps_hold (sin : ℚ → ℚ) (t0 : ℚ) (hne : t0 ≠ 0) (events : List Event) :
    ∀ s : Sketch, Holding t0 s →
      (∀ t : Tick, Event.draw t ∈ events → t.millis - t0 < POSITION_HOLD_TIME) →
      Holding t0 (run sin s events) := by
  induction events with
  | nil => intro s hH _; exact hH
  | cons e rest ih =>
    intro s hH hlt
    refine ih (step sin s e) (step_keeps_hold sin s e t0 hH hne ?_) ?_
    · intro t ht
      exact hlt t (ht ▸ List.mem_cons_self _ _)
    · intro t ht
      exact hlt t (List.mem_cons_of_mem _ ht)

/-! ### A sample run: detection, approach, hold, return -/

theorem gotFaces_initial : gotFaces [faceUpperLeft] initial = avoidStart := by
  simp [gotFaces, initial, avoidStart, calculateAvoidancePosition, faceUpperLeft, width, height,
    HORIZONTAL_MAX, HORIZONTAL_MIN, VERTICAL_MIN, VERTICAL_MAX]
  norm_num

theorem draw_avoidStart (m : ℚ) : draw sampleSin (tickAt m) avoidStart = approachState := by
  simp [draw, stateMachine, initial, avoidStart, approachState, drawAvoiding, moveTowardTarget,
    hasReachedTarget, clampAngles, constrain, lerp, sendPositionsToArduino, SMOOTHING,
    HORIZONTAL_MAX, HORIZONTAL_MIN, VERTICAL_MIN, VERTICAL_MAX, TARGET_REACHED_THRESHOLD]
  norm_num [abs_lt]

theorem draw_approachState : draw sampleSin (tickAt 1100) approachState = holdState := by
  simp [draw, stateMachine, initial, avoidStart, approachState, holdState, drawAvoiding,
    moveTowardTarget, hasReachedTarget, clampAngles, constrain, lerp, sendPositionsToArduino,
    SMOOTHING, HORIZONTAL_MAX, HORIZONTAL_MIN, VERTICAL_MIN, VERTICAL_MAX,
    TARGET_REACHED_THRESHOLD, tickAt, sampleTick]
  norm_num [abs_lt]

theorem draw_holdState : draw sampleSin (tickAt 2100) holdState = returnedState := by
  simp [draw, stateMachine, initial, avoidStart, holdState, returnedState, drawAvoiding,
    moveTowardTarget, hasReachedTarget, clampAngles, constrain, lerp, sendPositionsToArduino,
    SMOOTHING, HORIZONTAL_MAX, HORIZONTAL_MIN, VERTICAL_MIN, VERTICAL_MAX,
    TARGET_REACHED_THRESHOLD, POSITION_HOLD_TIME, tickAt, sampleTick]
  norm_num [abs_lt]

theorem reachable_approachState : Reachable sampleSin approachState :=
  ⟨[Event.gotFaces [faceUpperLeft], Event.draw (tickAt 0)], by
    simp only [run, List.foldl, step, gotFaces_initial, draw_avoidStart]⟩

theorem reachable_returnedState : Reachable sampleSin returnedState :=
  ⟨[Event.gotFaces [faceUpperLeft], Event.draw (tickAt 1000), Event.draw (tickAt 1100),
      Event.draw (tickAt 2100)], by
    simp only [run, List.foldl, step, gotFaces_initial, draw_avoidStart, draw_approachState,
      draw_holdState]⟩

/-! ### Detections and frames -/

/-- The horizontal target chosen by the avoidance policy is more than 20 away from the
current horizontal angle. -/
theorem avoidance_target_far (faceX faceY faceSize : ℚ) (s : Sketch) :
    20 < |s.horizontalAngle -
      (calculateAvoidancePosition faceX faceY faceSize s).targetHorizontalAngle| := by
  rw [calculateAvoidancePosition_targetH]
  split_ifs <;> rw [lt_abs] <;> first
    | (left; linarith)
    | (right; linarith)

/-- The frame after a detection was taken up finds the pose away from the new target. -/
theorem gotFaces_then_draw (sin : ℚ → ℚ) (t : Tick) (face : Face) (rest : List Face)
    (s : Sketch) (h : s.currentState = STATE.SEARCHING ∨ s.currentState = STATE.SCANNING) :
    (draw sin t (gotFaces (face :: rest) s)).currentState = STATE.AVOIDING ∧
      (draw sin t (gotFaces (face :: rest) s)).noFaceFrameCount = 0 ∧
      (draw sin t (gotFaces (face :: rest) s)).targetReachedTime = 0 := by
  obtain ⟨k1, -, k3, -, -, -, k7⟩ := draw_frame sin t (gotFaces (face :: rest) s)
  have hA : (gotFaces (face :: rest) s).currentState = STATE.AVOIDING := by
    rw [gotFaces_cons face rest s h]
  have hN : ¬ (hasReachedTarget (moveTowardTarget (gotFaces (face :: rest) s)) = true) := by
    rw [hasReachedTarget_iff]
    simp only [moveTowardTarget, lerp_smoothing_dist, gotFaces_cons face rest s h]
    intro hlt
    have := avoidance_target_far (face.box.x + face.box.width / 2)
      (face.box.y + face.box.height / 2) (face.box.width * face.box.height) s
    linarith [hlt.1]
  rw [k1, k3, k7, stateMachine_avoiding sin t _ hA]
  simp only [drawAvoiding, if_neg hN]
  refine ⟨hA, ?_, trivial⟩
  rw [gotFaces_cons face rest s h]
  rfl

/-- A frame in SEARCHING with a face on record only resets the frame counter. -/
theorem draw_searching_face (sin : ℚ → ℚ) (t : Tick) (s : Sketch)
    (hS : s.currentState = STATE.SEARCHING) (hf : s.faces ≠ []) :
    (draw sin t s).currentState = STATE.SEARCHING ∧
      (draw sin t s).targetHorizontalAngle = s.targetHorizontalAngle ∧
      (draw sin t s).targetVerticalAngle = s.targetVerticalAngle ∧
      (draw sin t s).noFaceFrameCount = 0 := by
  obtain ⟨k1, -, k3, -, k5, k6, -⟩ := draw_frame sin t s
  rw [k1, k3, k5, k6, stateMachine_searching sin t s hS, drawSearching_face t s hf]
  exact ⟨hS, rfl, rfl, rfl⟩

/-- The 200th frame without a detection switches to SCANNING. -/
theorem draw_timeout (sin : ℚ → ℚ) (t : Tick) (s : Sketch)
    (hS : s.currentState = STATE.SEARCHING) (hf : s.faces = [])
    (hc : s.noFaceFrameCount = 199) :
    (draw sin t s).currentState = STATE.SCANNING ∧ (draw sin t s).scanStartTime = t.millis := by
  obtain ⟨k1, -, -, k4, -⟩ := draw_frame sin t s
  have h200 : NO_FACE_TIMEOUT ≤ s.noFaceFrameCount + 1 := by
    simp only [NO_FACE_TIMEOUT]; omega
  rw [k1, k4, stateMachine_searching sin t _ hS, drawSearching_no_face t _ hf, if_pos h200]
  exact ⟨rfl, rfl⟩

theorem run_append (sin : ℚ → ℚ) (s : Sketch) (a b : List Event) :
    run sin s (a ++ b) = run sin (run sin s a) b := by
  simp only [run, List.foldl_append]

theorem run_singleton (sin : ℚ → ℚ) (s : Sketch) (e : Event) :
    run sin s [e] = step sin s e := rfl

theorem quietFrames_quiet : ∀ e ∈ quietFrames, e.deliversDetection = false := by
  intro e h
  simp only [quietFrames, List.mem_cons, List.mem_replicate] at h
  rcases h with h | h | ⟨-, h⟩ <;> subst h <;> rfl

theorem quietFrames_drawCount : drawCount quietFrames = 199 := by
  rw [quietFrames, drawCount_cons, drawCount_cons (Event.portOpen 10),
    drawCount_replicate_draw]
  rfl

theorem scanState_scanning :
    Reachable sampleSin scanState ∧ scanState.currentState = STATE.SCANNING := by
  refine ⟨⟨quietFrames ++ [Event.draw sampleTick], by rw [scanState]⟩, ?_⟩
  obtain ⟨h1, h2, h3⟩ := run_searching_no_face sampleSin quietFrames initial rfl rfl
    quietFrames_quiet (by rw [quietFrames_drawCount]; decide)
  rw [quietFrames_drawCount] at h3
  rw [scanState, run_append, run_singleton, step]
  exact (draw_timeout sampleSin sampleTick _ h1 h2 (by rw [h3]; rfl)).1

theorem append_singleton_ne_self (l : List String) (c : String) : l ++ [c] ≠ l := by
  intro h
  have := congrArg List.length h
  simp at this

/-! ### The target while AVOIDING -/

theorem drawScanning_currentState (sin : ℚ → ℚ) (t : Tick) (s : Sketch)
    (hS : s.currentState = STATE.SCANNING) :
    (drawScanning sin t s).currentState ≠ STATE.AVOIDING := by
  simp only [drawScanning]
  split_ifs
  · simp
  · simp [hS]

theorem drawSearching_currentState (t : Tick) (s : Sketch)
    (hS : s.currentState = STATE.SEARCHING) :
    (drawSearching t s).currentState ≠ STATE.AVOIDING := by
  by_cases hf : s.faces = []
  · rw [drawSearching_no_face t s hf]
    split_ifs
    · simp
    · simp [hS]
  · rw [drawSearching_face t s hf]
    simp [hS]

/-- Every call keeps the target within the axis limits while the camera is AVOIDING. -/
theorem step_avoiding_targetInBounds (sin : ℚ → ℚ) (s : Sketch) (e : Event)
    (h : s.currentState = STATE.AVOIDING → TargetInBounds s) :
    (step sin s e).currentState = STATE.AVOIDING → TargetInBounds (step sin s e) := by
  cases e with
  | draw t =>
    obtain ⟨k1, -, -, -, k5, k6, -⟩ := draw_frame sin t s
    simp only [step, TargetInBounds, k1, k5, k6]
    cases hc : s.currentState with
    | SEARCHING =>
      rw [stateMachine_searching sin t s hc]
      intro hA
      exact absurd hA (drawSearching_currentState t s hc)
    | AVOIDING =>
      rw [stateMachine_avoiding sin t s hc]
      obtain ⟨-, -, a3, a4⟩ := drawAvoiding_frame t s
      rw [a3, a4]
      intro _
      exact h hc
    | SCANNING =>
      rw [stateMachine_scanning sin t s hc]
      intro hA
      exact absurd hA (drawScanning_currentState sin t s hc)
  | gotFaces results =>
    by_cases hA : s.currentState = STATE.AVOIDING
    · simp only [step, gotFaces_avoiding results s hA]
      exact h
    · have hS : s.currentState = STATE.SEARCHING ∨ s.currentState = STATE.SCANNING := by
        cases hc : s.currentState <;> simp_all
      cases results with
      | nil =>
        intro hA'
        simp [step, gotFaces, hS] at hA'
        exact absurd hA' hA
      | cons face rest =>
        intro _
        simp only [step, gotFaces_cons face rest s hS, TargetInBounds,
          calculateAvoidancePosition_targetH, calculateAvoidancePosition_targetV,
          HORIZONTAL_MIN, HORIZONTAL_MAX, VERTICAL_MIN, VERTICAL_MAX]
        constructor <;> split_ifs <;> norm_num
  | portOpen millis =>
    obtain ⟨k1, -, -, -, k5, k6, -⟩ := sendPositionsToArduino_frame millis s.horizontalAngle
      s.verticalAngle { s with serialConnected := true }
    simp only [step, portOpen, TargetInBounds, k1, k5, k6]
    exact h
  | portClose => exact h
  | serialError => exact h

/-- In every reachable state in which the camera is AVOIDING the target is within the
axis limits. -/
theorem reachable_avoiding_targetInBounds (sin : ℚ → ℚ) (s : Sketch)
    (hR : Reachable sin s) (hA : s.currentState = STATE.AVOIDING) : TargetInBounds s := by
  obtain ⟨events, rfl⟩ := hR
  refine run_invariant sin (fun s => s.currentState = STATE.AVOIDING → TargetInBounds s)
    (step_avoiding_targetInBounds sin) events initial ?_ hA
  intro h
  exact absurd h (by decide)

/-! ### The command throttle over a run -/

theorem stateMachine_serial (sin : ℚ → ℚ) (t : Tick) (s : Sketch) :
    (stateMachine sin t s).serialConnected = s.serialConnected ∧
      (stateMachine sin t s).lastSerialSendTime = s.lastSerialSendTime ∧
      (stateMachine sin t s).written = s.written := by
  cases hc : s.currentState with
  | SEARCHING =>
    rw [stateMachine_searching sin t s hc]
    simp only [drawSearching]
    split_ifs <;> simp
  | AVOIDING =>
    rw [stateMachine_avoiding sin t s hc]
    simp only [drawAvoiding, moveTowardTarget]
    split_ifs <;> simp
  | SCANNING =>
    rw [stateMachine_scanning sin t s hc]
    simp only [drawScanning]
    split_ifs <;> simp

/-- A call of `sendPositionsToArduino` either writes, more than 50 ms after the time on
record, and records its own clock reading, or changes nothing. -/
theorem sendPositionsToArduino_cases (now hPos vPos : ℚ) (s : Sketch) :
    ((sendPositionsToArduino now hPos vPos s).written = s.written ++ [command hPos vPos] ∧
        (sendPositionsToArduino now hPos vPos s).lastSerialSendTime = now ∧
        Spaced s.lastSerialSendTime now) ∨
      ((sendPositionsToArduino now hPos vPos s).written = s.written ∧
        (sendPositionsToArduino now hPos vPos s).lastSerialSendTime = s.lastSerialSendTime) := by
  simp only [sendPositionsToArduino, Spaced]
  split_ifs with h
  · exact Or.inl ⟨rfl, rfl, h.2⟩
  · exact Or.inr ⟨rfl, rfl⟩

/-- A frame either writes the command of its clamped pose, or writes nothing. -/
theorem draw_cases (sin : ℚ → ℚ) (t : Tick) (s : Sketch) :
    ((draw sin t s).written =
          s.written ++ [command (draw sin t s).horizontalAngle (draw sin t s).verticalAngle] ∧
        (draw sin t s).lastSerialSendTime = t.millis ∧
        Spaced s.lastSerialSendTime t.millis) ∨
      ((draw sin t s).written = s.written ∧
        (draw sin t s).lastSerialSendTime = s.lastSerialSendTime) := by
  obtain ⟨-, k2, k3⟩ := stateMachine_serial sin t s
  have hw : (clampAngles (stateMachine sin t s)).written = s.written := k3
  have hl : (clampAngles (stateMachine sin t s)).lastSerialSendTime = s.lastSerialSendTime := k2
  have hp := sendPositionsToArduino_pose t.millis
    (clampAngles (stateMachine sin t s)).horizontalAngle
    (clampAngles (stateMachine sin t s)).verticalAngle (clampAngles (stateMachine sin t s))
  have hc := sendPositionsToArduino_cases t.millis
    (clampAngles (stateMachine sin t s)).horizontalAngle
    (clampAngles (stateMachine sin t s)).verticalAngle (clampAngles (stateMachine sin t s))
  rw [hw, hl] at hc
  simp only [draw]
  rw [hp.1, hp.2]
  exact hc

/-- The handler `portOpen` either writes the command of the pose, or writes nothing. -/
theorem portOpen_cases (millis : ℚ) (s : Sketch) :
    ((portOpen millis s).written =
          s.written ++ [command (portOpen millis s).horizontalAngle
            (portOpen millis s).verticalAngle] ∧
        (portOpen millis s).lastSerialSendTime = millis ∧
        Spaced s.lastSerialSendTime millis) ∨
      ((portOpen millis s).written = s.written ∧
        (portOpen millis s).lastSerialSendTime = s.lastSerialSendTime) := by
  have hp := sendPositionsToArduino_pose millis s.horizontalAngle s.verticalAngle
    { s with serialConnected := true }
  have hc := sendPositionsToArduino_cases millis s.horizontalAngle s.verticalAngle
    { s with serialConnected := true }
  simp only [portOpen]
  rw [hp.1, hp.2]
  exact hc

/-- One call in front of a run whose sending times are spaced keeps them spaced. -/
theorem spaced_cons_step (s s' : Sketch) (now : ℚ) (c : String) (times : List ℚ)
    (hc : (s'.written = s.written ++ [c] ∧ s'.lastSerialSendTime = now ∧
        Spaced s.lastSerialSendTime now) ∨
      (s'.written = s.written ∧ s'.lastSerialSendTime = s.lastSerialSendTime))
    (ih : (∀ m ∈ times, Spaced s'.lastSerialSendTime m) ∧ List.Pairwise Spaced times) :
    (∀ m ∈ (if s'.written ≠ s.written then [now] else []) ++ times,
        Spaced s.lastSerialSendTime m) ∧
      List.Pairwise Spaced ((if s'.written ≠ s.written then [now] else []) ++ times) := by
  rcases hc with ⟨hw, hl, hs⟩ | ⟨hw, hl⟩
  · have hne : s'.written ≠ s.written := by
      rw [hw]; exact append_singleton_ne_self _ _
    rw [hl] at ih
    rw [if_pos hne]
    simp only [List.singleton_append, List.mem_cons, List.pairwise_cons]
    refine ⟨?_, ih.1, ih.2⟩
    rintro m (rfl | hm)
    · exact hs
    · have := ih.1 m hm
      simp only [Spaced, SERIAL_SEND_INTERVAL] at this hs ⊢
      linarith
  · have hne : ¬ (s'.written ≠ s.written) := by
      rw [hw]; exact fun h => h rfl
    rw [if_neg hne, List.nil_append]
    rw [hl] at ih
    exact ih

/-- Along every run, each command is sent more than 50 ms after the time on record at the
start and more than 50 ms after every earlier command of the run. -/
theorem sendTimes_spaced (sin : ℚ → ℚ) (events : List Event) :
    ∀ s : Sketch, (∀ m ∈ sendTimes sin s events, Spaced s.lastSerialSendTime m) ∧
      List.Pairwise Spaced (sendTimes sin s events) := by
  induction events with
  | nil =>
    intro s
    simp [sendTimes]
  | cons e rest ih =>
    intro s
    cases e with
    | draw t =>
      simp only [sendTimes]
      rcases draw_cases sin t s with h | h
      · exact spaced_cons_step s _ t.millis _ _ (Or.inl h) (ih _)
      · exact spaced_cons_step s _ t.millis "" _ (Or.inr h) (ih _)
    | portOpen millis =>
      simp only [sendTimes]
      rcases portOpen_cases millis s with h | h
      · exact spaced_cons_step s _ millis _ _ (Or.inl h) (ih _)
      · exact spaced_cons_step s _ millis "" _ (Or.inr h) (ih _)
    | gotFaces results =>
      simp only [sendTimes]
      have hl : (gotFaces results s).lastSerialSendTime = s.lastSerialSendTime := by
        simp only [gotFaces]
        split_ifs
        · cases results with
          | nil => rfl
          | cons face tail =>
            simp only
            rw [calculateAvoidancePosition_frame]
        · rfl
      rw [← hl]
      exact ih _
    | portClose => exact ih (portClose s)
    | serialError => exact ih (serialError s)

/-- The sending times list one clock reading for each command written during the run. -/
theorem sendTimes_length (sin : ℚ → ℚ) (events : List Event) :
    ∀ s : Sketch,
      (run sin s events).written.length = s.written.length + (sendTimes sin s events).length := by
  induction events with
  | nil => intro s; simp [run, sendTimes]
  | cons e rest ih =>
    intro s
    have hrun : run sin s (e :: rest) = run sin (step sin s e) rest := rfl
    rw [hrun, ih]
    cases e with
    | draw t =>
      simp only [sendTimes, step, List.length_append]
      rcases draw_cases sin t s with ⟨hw, -, -⟩ | ⟨hw, -⟩
      · have hne : (draw sin t s).written ≠ s.written := by
          rw [hw]; exact append_singleton_ne_self _ _
        rw [if_pos hne, hw]
        simp only [List.length_append, List.length_singleton]
        omega
      · have hne : ¬ ((draw sin t s).written ≠ s.written) := by
          rw [hw]; exact fun h => h rfl
        rw [if_neg hne, hw]
        simp
    | portOpen millis =>
      simp only [sendTimes, step, List.length_append]
      rcases portOpen_cases millis s with ⟨hw, -, -⟩ | ⟨hw, -⟩
      · have hne : (portOpen millis s).written ≠ s.written := by
          rw [hw]; exact append_singleton_ne_self _ _
        rw [if_pos hne, hw]
        simp only [List.length_append, List.length_singleton]
        omega
      · have hne : ¬ ((portOpen millis s).written ≠ s.written) := by
          rw [hw]; exact fun h => h rfl
        rw [if_neg hne, hw]
        simp
    | gotFaces results =>
      simp only [sendTimes, step]
      have hw : (gotFaces results s).written = s.written := by
        simp only [gotFaces]
        split_ifs
        · cases results with
          | nil => rfl
          | cons face tail =>
            simp only
            rw [calculateAvoidancePosition_frame]
        · rfl
      rw [hw]
    | portClose => rfl
    | serialError => rfl

/-- Spaced clock readings that all lie in `(lo, hi]` span more than 50 ms per gap. -/
theorem spaced_span (l : List ℚ) :
    ∀ lo hi : ℚ, List.Pairwise Spaced l → (∀ x ∈ l, lo < x) → (∀ x ∈ l, x ≤ hi) →
      l ≠ [] →
      50 * ((l.length : ℚ) - 1) < hi - lo := by
  induction l with
  | nil => intro lo hi _ _ _ h; exact absurd rfl h
  | cons x rest ih =>
    intro lo hi hp hlo hhi _
    have hx1 := hlo x (List.mem_cons_self _ _)
    have hx2 := hhi x (List.mem_cons_self _ _)
    rw [List.pairwise_cons] at hp
    by_cases hr : rest = []
    · subst hr
      simp only [List.length_singleton, Nat.cast_one, sub_self, mul_zero]
      linarith
    · have h1 : ∀ y ∈ rest, x + 50 < y := by
        intro y hy
        have := hp.1 y hy
        simp only [Spaced, SERIAL_SEND_INTERVAL] at this
        linarith
      have := ih (x + 50) hi hp.2 h1 (fun y hy => hhi y (List.mem_cons_of_mem _ hy)) hr
      simp only [List.length_cons, Nat.cast_add, Nat.cast_one]
      linarith

/-- Among spaced clock readings at most 20 lie in a window of 1000 ms. -/
theorem spaced_window (l : List ℚ) (a : ℚ) (hp : List.Pairwise Spaced l) :
    sentInWindow a l ≤ 20 := by
  unfold sentInWindow
  have hF : List.Pairwise Spaced (l.filter (fun m => decide (a ≤ m ∧ m ≤ a + 1000))) :=
    hp.filter _
  have hmem : ∀ x ∈ l.filter (fun m => decide (a ≤ m ∧ m ≤ a + 1000)),
      a ≤ x ∧ x ≤ a + 1000 := by
    intro x hx
    have := (List.mem_filter.mp hx).2
    exact of_decide_eq_true this
  generalize l.filter (fun m => decide (a ≤ m ∧ m ≤ a + 1000)) = F at hF hmem
  cases F with
  | nil => simp
  | cons x rest =>
    rw [List.pairwise_cons] at hF
    by_cases hr : rest = []
    · subst hr; simp
    · have hx := hmem x (List.mem_cons_self _ _)
      have h1 : ∀ y ∈ rest, x + 50 < y := by
        intro y hy
        have := hF.1 y hy
        simp only [Spaced, SERIAL_SEND_INTERVAL] at this
        linarith
      have h2 := spaced_span rest (x + 50) (a + 1000) hF.2 h1
        (fun y hy => (hmem y (List.mem_cons_of_mem _ hy)).2) hr
      have h3 : (rest.length : ℚ) < 20 := by linarith [hx.1]
      have h4 : rest.length < 20 := by exact_mod_cast h3
      simp only [List.length_cons]
      omega

/-! ### The text of the commands -/

theorem command_130_35 : command 130 35 = "H130V35\n" := by
  have h1 : Rat.floor 130 = 130 := by rfl
  have h2 : Rat.floor 35 = 35 := by rfl
  simp only [command, h1, h2]
  rfl

theorem command_eq_specCommand (h v : ℚ) (hh : 0 ≤ h) (hv : 0 ≤ v) :
    command h v = specCommand h v := by
  simp only [command, specCommand, truncate, if_pos hh, if_pos hv]

theorem reachable_poseInBounds (sin : ℚ → ℚ) (s : Sketch) (hR : Reachable sin s) :
    PoseInBounds s := by
  obtain ⟨events, rfl⟩ := hR
  refine run_invariant sin PoseInBounds (step_poseInBounds sin) events initial ?_
  norm_num [PoseInBounds, initial, HORIZONTAL_MIN, HORIZONTAL_MAX, VERTICAL_MIN, VERTICAL_MAX]

theorem reachable_step (sin : ℚ → ℚ) (s : Sketch) (e : Event) (hR : Reachable sin s) :
    Reachable sin (step sin s e) := by
  obtain ⟨events, rfl⟩ := hR
  exact ⟨events ++ [e], by rw [run_append, run_singleton]⟩

/-- Every call from a state with the pose within the limits writes nothing or writes the
command of the pose, as the specification words it. -/
theorem step_written (sin : ℚ → ℚ) (s : Sketch) (e : Event) (hP : PoseInBounds s) :
    (step sin s e).written = s.written ∨
      (step sin s e).written =
        s.written ++ [specCommand (step sin s e).horizontalAngle (step sin s e).verticalAngle] := by
  have hP' : PoseInBounds (step sin s e) := step_poseInBounds sin s e hP
  have hh : 0 ≤ (step sin s e).horizontalAngle := by
    have := hP'.1.1
    simp only [HORIZONTAL_MIN] at this
    linarith
  have hv : 0 ≤ (step sin s e).verticalAngle := hP'.2.1
  rw [← command_eq_specCommand _ _ hh hv]
  cases e with
  | draw t =>
    rcases draw_cases sin t s with ⟨hw, -, -⟩ | ⟨hw, -⟩
    · exact Or.inr hw
    · exact Or.inl hw
  | portOpen millis =>
    rcases portOpen_cases millis s with ⟨hw, -, -⟩ | ⟨hw, -⟩
    · exact Or.inr hw
    · exact Or.inl hw
  | gotFaces results =>
    left
    simp only [step, gotFaces]
    split_ifs
    · cases results with
      | nil => rfl
      | cons face tail =>
        simp only
        rw [calculateAvoidancePosition_frame]
    · rfl
  | portClose => exact Or.inl rfl
  | serialError => exact Or.inl rfl

/-! ### Frames while SCANNING -/

theorem map_scan (x : ℚ) : map x (-1) 1 HORIZONTAL_MIN HORIZONTAL_MAX = 90 + 40 * x := by
  simp only [map, HORIZONTAL_MIN, HORIZONTAL_MAX]
  ring

/-- The effect of a frame drawn while SCANNING. -/
theorem draw_scanning (sin : ℚ → ℚ) (t : Tick) (s : Sketch)
    (hS : s.currentState = STATE.SCANNING) :
    (draw sin t s).targetHorizontalAngle =
        map (sin ((t.millis - s.scanStartTime) * SCAN_SPEED)) (-1) 1
          HORIZONTAL_MIN HORIZONTAL_MAX ∧
      (draw sin t s).targetVerticalAngle = 45 ∧
      (draw sin t s).verticalAngle =
        constrain (lerp s.verticalAngle 45 (SMOOTHING * (1 / 2))) VERTICAL_MIN VERTICAL_MAX ∧
      (draw sin t s).faces = s.faces ∧
      (draw sin t s).currentState =
        (if s.faces.length > 0 then STATE.SEARCHING else STATE.SCANNING) ∧
      (draw sin t s).targetReachedTime = s.targetReachedTime ∧
      (draw sin t s).scanStartTime = s.scanStartTime := by
  obtain ⟨k1, k2, -, k4, k5, k6, k7⟩ := draw_frame sin t s
  obtain ⟨-, p2⟩ := draw_pose sin t s
  rw [k1, k2, k4, k5, k6, k7, p2, stateMachine_scanning sin t s hS]
  simp only [drawScanning]
  split_ifs <;> simp [hS]

theorem sampleSin_bounds (x : ℚ) : -1 ≤ sampleSin x ∧ sampleSin x ≤ 1 := by
  have hpos : (0 : ℚ) < 1 + x ^ 2 := by positivity
  unfold sampleSin
  rw [le_div_iff₀ hpos, div_le_iff₀ hpos]
  constructor
  · nlinarith [sq_nonneg (x + 1)]
  · nlinarith [sq_nonneg (x - 1)]

theorem sampleSin_zero : sampleSin 0 = 0 := by
  norm_num [sampleSin]

/-- The vertical step of a frame drawn while SCANNING, for a vertical angle within the
limits. -/
theorem scan_vertical_step (v : ℚ) (h0 : 0 ≤ v) :
    constrain (lerp v 45 (SMOOTHING * (1 / 2))) VERTICAL_MIN VERTICAL_MAX =
      min 35 (v + 45 / 100 * (45 - v)) := by
  have e : lerp v 45 (SMOOTHING * (1 / 2)) = v + 45 / 100 * (45 - v) := by
    simp only [lerp, SMOOTHING]
    ring
  have hnn : (0 : ℚ) ≤ min (v + 45 / 100 * (45 - v)) 35 := by
    apply le_min
    · linarith
    · norm_num
  rw [e, constrain, VERTICAL_MIN, VERTICAL_MAX, max_eq_left hnn, min_comm]

/-- A frame drawn while SCANNING with no face on record keeps SCANNING and raises the
vertical angle. -/
theorem draw_scanning_climb (sin : ℚ → ℚ) (t : Tick) (s : Sketch) (a : ℚ)
    (hS : s.currentState = STATE.SCANNING) (hf : s.faces = [])
    (ha : a ≤ s.verticalAngle) (h0 : 0 ≤ s.verticalAngle) :
    (draw sin t s).currentState = STATE.SCANNING ∧ (draw sin t s).faces = [] ∧
      (draw sin t s).targetVerticalAngle = 45 ∧
      min 35 (a + 45 / 100 * (45 - a)) ≤ (draw sin t s).verticalAngle ∧
      0 ≤ (draw sin t s).verticalAngle ∧ (draw sin t s).verticalAngle ≤ 35 := by
  obtain ⟨-, k2, k3, k4, k5, -, -⟩ := draw_scanning sin t s hS
  rw [k2, k3, k4, k5, scan_vertical_step _ h0, hf]
  refine ⟨by simp, rfl, rfl, ?_, ?_, min_le_left _ _⟩
  · apply min_le_min le_rfl
    linarith
  · apply le_min
    · norm_num
    · linarith

/-- Once the vertical angle is 35, frames drawn while SCANNING leave it at 35. -/
theorem run_scanning_top (sin : ℚ → ℚ) (ticks : List Tick) :
    ∀ s : Sketch, s.currentState = STATE.SCANNING → s.faces = [] → s.verticalAngle = 35 →
      (run sin s (ticks.map Event.draw)).verticalAngle = 35 := by
  induction ticks with
  | nil => intro s _ _ hv; exact hv
  | cons t rest ih =>
    intro s hS hf hv
    obtain ⟨h1, h2, -, h4, -, h6⟩ := draw_scanning_climb sin t s 35 hS hf (by rw [hv])
      (by rw [hv]; norm_num)
    have h35 : (draw sin t s).verticalAngle = 35 := by
      apply le_antisymm h6
      refine le_trans ?_ h4
      norm_num
    exact ih (draw sin t s) h1 h2 h35

/-- Three frames drawn while SCANNING bring the vertical angle to 35. -/
theorem three_frames_to_top (sin : ℚ → ℚ) (t1 t2 t3 : Tick) (s : Sketch)
    (hS : s.currentState = STATE.SCANNING) (hf : s.faces = [])
    (h0 : 0 ≤ s.verticalAngle) :
    (draw sin t3 (draw sin t2 (draw sin t1 s))).currentState = STATE.SCANNING ∧
      (draw sin t3 (draw sin t2 (draw sin t1 s))).faces = [] ∧
      (draw sin t3 (draw sin t2 (draw sin t1 s))).verticalAngle = 35 := by
  obtain ⟨a1, a2, -, a4, a5, -⟩ := draw_scanning_climb sin t1 s 0 hS hf h0 h0
  have a4' : (81 / 4 : ℚ) ≤ (draw sin t1 s).verticalAngle := by
    refine le_trans ?_ a4
    norm_num
  obtain ⟨b1, b2, -, b4, b5, -⟩ := draw_scanning_climb sin t2 _ (81 / 4) a1 a2 a4' a5
  have b4' : (31 : ℚ) ≤ (draw sin t2 (draw sin t1 s)).verticalAngle := by
    refine le_trans ?_ b4
    norm_num
  obtain ⟨c1, c2, -, c4, -, c6⟩ := draw_scanning_climb sin t3 _ 31 b1 b2 b4' b5
  refine ⟨c1, c2, le_antisymm c6 (le_trans ?_ c4)⟩
  norm_num

theorem avoidance_target_far_vertical (faceX faceY faceSize : ℚ) (s : Sketch) :
    10 < |s.verticalAngle -
      (calculateAvoidancePosition faceX faceY faceSize s).targetVerticalAngle| := by
  rw [calculateAvoidancePosition_targetV]
  split_ifs <;> rw [lt_abs] <;> first
    | (left; linarith)
    | (right; linarith)

/-! ### Invariants of the reachable states -/

/-- The effect of a frame drawn while SEARCHING on the fields other than the counters. -/
theorem draw_searching (sin : ℚ → ℚ) (t : Tick) (s : Sketch)
    (hS : s.currentState = STATE.SEARCHING) :
    (draw sin t s).targetHorizontalAngle = s.targetHorizontalAngle ∧
      (draw sin t s).targetVerticalAngle = s.targetVerticalAngle ∧
      (draw sin t s).targetReachedTime = s.targetReachedTime ∧
      (draw sin t s).faces = s.faces ∧
      (draw sin t s).horizontalAngle =
        constrain s.horizontalAngle HORIZONTAL_MIN HORIZONTAL_MAX ∧
      (draw sin t s).verticalAngle = constrain s.verticalAngle VERTICAL_MIN VERTICAL_MAX ∧
      (draw sin t s).currentState ≠ STATE.AVOIDING ∧
      ((draw sin t s).currentState = STATE.SCANNING → s.faces = []) := by
  obtain ⟨k1, k2, -, -, k5, k6, k7⟩ := draw_frame sin t s
  obtain ⟨p1, p2⟩ := draw_pose sin t s
  rw [k1, k2, k5, k6, k7, p1, p2, stateMachine_searching sin t s hS]
  by_cases hf : s.faces = []
  · rw [drawSearching_no_face t s hf]
    split_ifs <;> simp [hS, hf]
  · rw [drawSearching_face t s hf]
    simp [hS]

theorem drawAvoiding_currentState (t : Tick) (s : Sketch)
    (hA : s.currentState = STATE.AVOIDING) :
    (drawAvoiding t s).currentState ≠ STATE.SCANNING := by
  simp only [drawAvoiding, moveTowardTarget]
  split_ifs <;> simp [hA]

/-- The hold timer of the state after a frame drawn while AVOIDING. -/
theorem drawAvoiding_timer (t : Tick) (s : Sketch) (hA : s.currentState = STATE.AVOIDING) :
    ((drawAvoiding t s).currentState ≠ STATE.AVOIDING →
        (drawAvoiding t s).targetReachedTime = 0) ∧
      (hasReachedTarget (moveTowardTarget s) = false →
        (drawAvoiding t s).targetReachedTime = 0) ∧
      (hasReachedTarget (moveTowardTarget s) = true → s.targetReachedTime ≠ 0 →
        (drawAvoiding t s).currentState = STATE.AVOIDING →
        (drawAvoiding t s).targetReachedTime = s.targetReachedTime) := by
  simp only [drawAvoiding]
  have e1 : (moveTowardTarget s).currentState = STATE.AVOIDING := hA
  have e2 : (moveTowardTarget s).targetReachedTime = s.targetReachedTime := rfl
  split_ifs <;> simp_all

theorem gotFaces_frame (results : List Face) (s : Sketch) :
    (gotFaces results s).targetReachedTime = s.targetReachedTime ∧
      (gotFaces results s).horizontalAngle = s.horizontalAngle ∧
      (gotFaces results s).verticalAngle = s.verticalAngle := by
  simp only [gotFaces]
  split_ifs
  · cases results with
    | nil => exact ⟨rfl, rfl, rfl⟩
    | cons face tail =>
      simp only
      rw [calculateAvoidancePosition_frame]
      exact ⟨rfl, rfl, rfl⟩
  · exact ⟨rfl, rfl, rfl⟩

/-- Every call keeps the hold timer unset outside AVOIDING. -/
theorem step_timer_unset (sin : ℚ → ℚ) (s : Sketch) (e : Event)
    (h : s.currentState ≠ STATE.AVOIDING → s.targetReachedTime = 0) :
    (step sin s e).currentState ≠ STATE.AVOIDING → (step sin s e).targetReachedTime = 0 := by
  cases e with
  | draw t =>
    cases hc : s.currentState with
    | SEARCHING =>
      intro _
      simp only [step, (draw_searching sin t s hc).2.2.1]
      exact h (by rw [hc]; decide)
    | AVOIDING =>
      obtain ⟨k1, -, -, -, -, -, k7⟩ := draw_frame sin t s
      simp only [step, k1, k7, stateMachine_avoiding sin t s hc]
      exact (drawAvoiding_timer t s hc).1
    | SCANNING =>
      intro _
      simp only [step, (draw_scanning sin t s hc).2.2.2.2.2.1]
      exact h (by rw [hc]; decide)
  | gotFaces results =>
    by_cases hA : s.currentState = STATE.AVOIDING
    · simp only [step, gotFaces_avoiding results s hA]
      exact h
    · intro _
      simp only [step, (gotFaces_frame results s).1]
      exact h hA
  | portOpen millis =>
    obtain ⟨k1, -, -, -, -, -, k7⟩ := sendPositionsToArduino_frame millis s.horizontalAngle
      s.verticalAngle { s with serialConnected := true }
    simp only [step, portOpen, k1, k7]
    exact h
  | portClose => exact h
  | serialError => exact h

theorem reachable_timer_unset (sin : ℚ → ℚ) (s : Sketch) (hR : Reachable sin s)
    (hA : s.currentState ≠ STATE.AVOIDING) : s.targetReachedTime = 0 := by
  obtain ⟨events, rfl⟩ := hR
  exact run_invariant sin (fun s => s.currentState ≠ STATE.AVOIDING → s.targetReachedTime = 0)
    (step_timer_unset sin) events initial (fun _ => rfl) hA

/-- Every call keeps `faces` empty while the camera is SCANNING. -/
theorem step_scanning_no_face (sin : ℚ → ℚ) (s : Sketch) (e : Event)
    (h : s.currentState = STATE.SCANNING → s.faces = []) :
    (step sin s e).currentState = STATE.SCANNING → (step sin s e).faces = [] := by
  cases e with
  | draw t =>
    cases hc : s.currentState with
    | SEARCHING =>
      intro hS
      obtain ⟨-, -, -, k4, -, -, -, k8⟩ := draw_searching sin t s hc
      simp only [step] at hS ⊢
      rw [k4]
      exact k8 hS
    | AVOIDING =>
      obtain ⟨k1, -⟩ := draw_frame sin t s
      intro hS
      simp only [step, k1, stateMachine_avoiding sin t s hc] at hS
      exact absurd hS (drawAvoiding_currentState t s hc)
    | SCANNING =>
      intro _
      simp only [step, (draw_scanning sin t s hc).2.2.2.1]
      exact h hc
  | gotFaces results =>
    by_cases hA : s.currentState = STATE.AVOIDING
    · simp only [step, gotFaces_avoiding results s hA]
      exact h
    · have hS : s.currentState = STATE.SEARCHING ∨ s.currentState = STATE.SCANNING := by
        cases hc : s.currentState <;> simp_all
      cases results with
      | nil =>
        intro _
        simp [step, gotFaces, hS]
      | cons face rest =>
        intro hS'
        simp only [step, gotFaces_cons face rest s hS] at hS'
        exact absurd hS' (by decide)
  | portOpen millis =>
    obtain ⟨k1, k2, -⟩ := sendPositionsToArduino_frame millis s.horizontalAngle
      s.verticalAngle { s with serialConnected := true }
    simp only [step, portOpen, k1, k2]
    exact h
  | portClose => exact h
  | serialError => exact h

theorem reachable_scanning_no_face (sin : ℚ → ℚ) (s : Sketch) (hR : Reachable sin s)
    (hS : s.currentState = STATE.SCANNING) : s.faces = [] := by
  obtain ⟨events, rfl⟩ := hR
  exact run_invariant sin (fun s => s.currentState = STATE.SCANNING → s.faces = [])
    (step_scanning_no_face sin) events initial (fun _ => rfl) hS

/-! ### Smoothing and clamping within the limits -/

theorem constrain_id (x low high : ℚ) (h1 : low ≤ x) (h2 : x ≤ high) :
    constrain x low high = x := by
  rw [constrain, min_eq_left h2, max_eq_left h1]

theorem clampAngles_id (s : Sketch) (hP : PoseInBounds s) : clampAngles s = s := by
  simp only [clampAngles, constrain_id _ _ _ hP.1.1 hP.1.2, constrain_id _ _ _ hP.2.1 hP.2.2]

theorem lerp_between (a target low high : ℚ) (h1 : low ≤ a) (h2 : a ≤ high)
    (h3 : low ≤ target) (h4 : target ≤ high) :
    low ≤ lerp a target SMOOTHING ∧ lerp a target SMOOTHING ≤ high := by
  simp only [lerp, SMOOTHING]
  constructor <;> linarith

theorem moveTowardTarget_inBounds (s : Sketch) (hP : PoseInBounds s) (hT : TargetInBounds s) :
    PoseInBounds (moveTowardTarget s) :=
  ⟨lerp_between _ _ _ _ hP.1.1 hP.1.2 hT.1.1 hT.1.2,
    lerp_between _ _ _ _ hP.2.1 hP.2.2 hT.2.1 hT.2.2⟩

/-- With pose and target within the limits, the state machine's AVOIDING case needs no
clamping and is the tick of the specification. -/
theorem drawAvoiding_eq_spec (t : Tick) (s : Sketch) (hP : PoseInBounds s)
    (hT : TargetInBounds s) :
    clampAngles (drawAvoiding t s) = drawAvoiding t s ∧
      drawAvoiding t s = avoidingTickSpec t s := by
  have hm := moveTowardTarget_inBounds s hP hT
  constructor
  · apply clampAngles_id
    obtain ⟨a1, a2, -, -⟩ := drawAvoiding_frame t s
    simp only [PoseInBounds, a1, a2]
    exact hm
  · simp only [avoidingTickSpec, clampAngles_id _ hm, drawAvoiding]

/-- With pose and target within the limits, a frame drawn while AVOIDING moves the pose by
the two `lerp` steps alone and leaves the target alone. -/
theorem draw_avoiding_pose (sin : ℚ → ℚ) (t : Tick) (s : Sketch)
    (hA : s.currentState = STATE.AVOIDING) (hP : PoseInBounds s) (hT : TargetInBounds s) :
    (draw sin t s).horizontalAngle = lerp s.horizontalAngle s.targetHorizontalAngle SMOOTHING ∧
      (draw sin t s).verticalAngle = lerp s.verticalAngle s.targetVerticalAngle SMOOTHING ∧
      (draw sin t s).targetHorizontalAngle = s.targetHorizontalAngle ∧
      (draw sin t s).targetVerticalAngle = s.targetVerticalAngle := by
  obtain ⟨-, -, -, -, k5, k6, -⟩ := draw_frame sin t s
  obtain ⟨p1, p2⟩ := draw_pose sin t s
  obtain ⟨a1, a2, a3, a4⟩ := drawAvoiding_frame t s
  have hm := moveTowardTarget_inBounds s hP hT
  rw [k5, k6, p1, p2, stateMachine_avoiding sin t s hA, a1, a2, a3, a4]
  exact ⟨constrain_id _ _ _ hm.1.1 hm.1.2, constrain_id _ _ _ hm.2.1 hm.2.2, rfl, rfl⟩

theorem draw_serialConnected (sin : ℚ → ℚ) (t : Tick) (s : Sketch) :
    (draw sin t s).serialConnected = s.serialConnected := by
  simp only [draw, sendPositionsToArduino]
  split_ifs <;> simp [clampAngles, (stateMachine_serial sin t s).1]

/-! ### Rounding to doubles -/

/-- Rounding to the nearest integer moves a number by at most a half. -/
theorem roundHalfEven_error (q : ℚ) : |(roundHalfEven q : ℚ) - q| ≤ 1 / 2 := by
  have h1 : (⌊q⌋ : ℚ) ≤ q := Int.floor_le q
  have h2 : q < ⌊q⌋ + 1 := Int.lt_floor_add_one q
  simp only [roundHalfEven]
  rw [abs_le]
  split_ifs with a b c <;> push_cast <;> constructor <;> linarith

/-- An integer less than a half away from `q` is the one `q` rounds to. -/
theorem roundHalfEven_eq (q : ℚ) (n : ℤ) (h : |q - n| < 1 / 2) : roundHalfEven q = n := by
  have he := roundHalfEven_error q
  rw [abs_le] at he
  rw [abs_lt] at h
  have h1 : ((roundHalfEven q : ℤ) : ℚ) - n < 1 := by linarith [he.1, he.2, h.1, h.2]
  have h2 : (-1 : ℚ) < ((roundHalfEven q : ℤ) : ℚ) - n := by linarith [he.1, he.2, h.1, h.2]
  have h3 : roundHalfEven q - n < 1 := by exact_mod_cast h1
  have h4 : -1 < roundHalfEven q - n := by exact_mod_cast h2
  omega

/-- Rounding to a double has relative error at most `2 ^ (-53)`. -/
theorem roundDouble_error (x : ℚ) : |roundDouble x - x| ≤ |x| / 2 ^ 53 := by
  by_cases hx : x = 0
  · simp [roundDouble, hx]
  · have hpos : 0 < |x| := abs_pos.mpr hx
    have hu : (0 : ℚ) < 2 ^ (Int.log 2 |x| - 52) := by positivity
    have hlog : ((2 : ℕ) : ℚ) ^ Int.log 2 |x| ≤ |x| := Int.zpow_log_le_self (by norm_num) hpos
    have he := roundHalfEven_error (x / 2 ^ (Int.log 2 |x| - 52))
    have e1 : roundDouble x - x =
        ((roundHalfEven (x / 2 ^ (Int.log 2 |x| - 52)) : ℚ) - x / 2 ^ (Int.log 2 |x| - 52)) *
          2 ^ (Int.log 2 |x| - 52) := by
      simp only [roundDouble, if_neg hx]
      field_simp
    rw [e1, abs_mul, abs_of_pos hu]
    have e2 : (2 : ℚ) ^ (Int.log 2 |x| - 52) = 2 ^ Int.log 2 |x| / 2 ^ 52 := by
      rw [zpow_sub₀ (by norm_num)]
      norm_num
    have h3 : (2 : ℚ) ^ Int.log 2 |x| ≤ |x| := by exact_mod_cast hlog
    have h4 : (0 : ℚ) < 2 ^ Int.log 2 |x| := by positivity
    rw [e2]
    calc |(roundHalfEven (x / (2 ^ Int.log 2 |x| / 2 ^ 52)) : ℚ) - x / (2 ^ Int.log 2 |x| / 2 ^ 52)| *
          (2 ^ Int.log 2 |x| / 2 ^ 52)
        ≤ 1 / 2 * (2 ^ Int.log 2 |x| / 2 ^ 52) := by
          rw [e2] at he
          exact mul_le_mul_of_nonneg_right he (by positivity)
      _ = 2 ^ Int.log 2 |x| / 2 ^ 53 := by ring
      _ ≤ |x| / 2 ^ 53 := by
          apply div_le_div_of_nonneg_right h3 (by positivity)

/-- The double `x` rounds to, from the binade of `x` and the nearest significand. -/
theorem roundDouble_eq (x : ℚ) (e n : ℤ) (h1 : (2 : ℚ) ^ e ≤ |x|) (h2 : |x| < (2 : ℚ) ^ (e + 1))
    (hn : |x / 2 ^ (e - 52) - n| < 1 / 2) : roundDouble x = n * 2 ^ (e - 52) := by
  have hpos : 0 < |x| := lt_of_lt_of_le (by positivity) h1
  have hx : x ≠ 0 := abs_pos.mp hpos
  have hlog : Int.log 2 |x| = e := by
    apply le_antisymm
    · have := (Int.lt_zpow_iff_log_lt (b := 2) (by norm_num) hpos (x := e + 1)).mp
        (by exact_mod_cast h2)
      omega
    · exact (Int.zpow_le_iff_le_log (b := 2) (by norm_num) hpos).mp (by exact_mod_cast h1)
  simp only [roundDouble, if_neg hx, hlog, roundHalfEven_eq _ n hn]

theorem SMOOTHING_DOUBLE_eq : SMOOTHING_DOUBLE = 8106479329266893 / 2 ^ 53 := by
  rw [SMOOTHING_DOUBLE, SMOOTHING, roundDouble_eq (9 / 10) (-1) 8106479329266893]
  · norm_num
  · norm_num [abs_of_pos]
  · norm_num [abs_of_pos]
  · norm_num [abs_lt]

theorem lerpDouble_3_0 : lerpDouble 3 0 SMOOTHING_DOUBLE = 337769972052787 / 2 ^ 50 := by
  have e1 : roundDouble (0 - 3) = -3 := by
    rw [roundDouble_eq (0 - 3) 1 (-6755399441055744)]
    · norm_num
    · norm_num
    · norm_num
    · norm_num [abs_lt]
  have e2 : roundDouble (8106479329266893 / 2 ^ 53 * -3) = -6079859496950170 / 2 ^ 51 := by
    rw [roundDouble_eq (8106479329266893 / 2 ^ 53 * -3) 1 (-6079859496950170)]
    · norm_num
    · norm_num [abs_of_neg]
    · norm_num [abs_of_neg]
    · norm_num [abs_lt]
  have e3 : roundDouble (-6079859496950170 / 2 ^ 51 + 3) = 337769972052787 / 2 ^ 50 := by
    rw [roundDouble_eq (-6079859496950170 / 2 ^ 51 + 3) (-2) 5404319552844592]
    · norm_num
    · norm_num [abs_of_pos]
    · norm_num [abs_of_pos]
    · norm_num [abs_lt]
  rw [lerpDouble, SMOOTHING_DOUBLE_eq, e1, e2, e3]

theorem roundDouble_error_le (x B : ℚ) (h : |x| ≤ B) : |roundDouble x - x| ≤ B / 2 ^ 53 :=
  le_trans (roundDouble_error x) (div_le_div_of_nonneg_right h (by positivity))

/-- In double arithmetic `lerp` with the factor 0.9 lands within `2 ^ (-42)` of the point
a tenth of the way back from the target. -/
theorem lerpDouble_near (a target : ℚ) (ha0 : 0 ≤ a) (ha : a ≤ 130) (hT0 : 0 ≤ target)
    (hT : target ≤ 130) :
    |lerpDouble a target SMOOTHING_DOUBLE - (target + (a - target) / 10)| ≤ 1 / 2 ^ 42 := by
  have hd : |target - a| ≤ 130 := by
    rw [abs_le]; constructor <;> linarith
  have e1 := roundDouble_error_le (target - a) 130 hd
  rw [abs_le] at e1 hd
  have hP : |8106479329266893 / 2 ^ 53 * roundDouble (target - a)| ≤ 256 := by
    rw [abs_le]
    constructor <;> norm_num <;> linarith [e1.1, e1.2, hd.1, hd.2]
  have e2 := roundDouble_error_le _ 256 hP
  rw [abs_le] at e2 hP
  have hR : |roundDouble (8106479329266893 / 2 ^ 53 * roundDouble (target - a)) + a| ≤ 512 := by
    rw [abs_le]
    constructor <;> norm_num at e2 ⊢ <;> linarith [e2.1, e2.2, hP.1, hP.2]
  have e3 := roundDouble_error_le _ 512 hR
  rw [abs_le] at e3
  rw [lerpDouble, SMOOTHING_DOUBLE_eq, abs_le]
  norm_num at e1 e2 e3 ⊢
  constructor <;> linarith [e1.1, e1.2, e2.1, e2.2, e3.1, e3.2, hd.1, hd.2]

/-- For angles within the limits, the exact `lerp` of the rational embedding is within
`2 ^ (-42)` of what JavaScript computes. -/
theorem lerpDouble_near_lerp (a target : ℚ) (ha0 : 0 ≤ a) (ha : a ≤ 130) (hT0 : 0 ≤ target)
    (hT : target ≤ 130) :
    |lerpDouble a target SMOOTHING_DOUBLE - lerp a target SMOOTHING| ≤ 1 / 2 ^ 42 := by
  have e : lerp a target SMOOTHING = target + (a - target) / 10 := by
    simp only [lerp, SMOOTHING]
    ring
  rw [e]
  exact lerpDouble_near a target ha0 ha hT0 hT

theorem constrain_lipschitz (x y low high : ℚ) :
    |constrain x low high - constrain y low high| ≤ |x - y| := by
  simp only [constrain, max_def, min_def]
  split_ifs <;> rw [abs_le] <;> constructor <;>
    rcases abs_cases (x - y) with ⟨h, _⟩ | ⟨h, _⟩ <;> rw [h] <;> linarith

/-- One axis of a frame drawn while AVOIDING, in double arithmetic. -/
theorem axis_step_double (a target low high : ℚ) (h0 : 0 ≤ low) (h130 : high ≤ 130)
    (ha : low ≤ a ∧ a ≤ high) (hT : low ≤ target ∧ target ≤ high) :
    abs (|constrain (lerpDouble a target SMOOTHING_DOUBLE) low high - target| -
        1 / 10 * |a - target|) ≤ 1 / 2 ^ 42 ∧
      |lerpDouble a target SMOOTHING_DOUBLE - target| ≤ 1 / 10 * |a - target| + 1 / 2 ^ 42 := by
  have hn := lerpDouble_near a target (by linarith [ha.1]) (by linarith [ha.2])
    (by linarith [hT.1]) (by linarith [hT.2])
  have hm1 : low ≤ target + (a - target) / 10 := by linarith [ha.1, hT.1]
  have hm2 : target + (a - target) / 10 ≤ high := by linarith [ha.2, hT.2]
  have hc := constrain_lipschitz (lerpDouble a target SMOOTHING_DOUBLE)
    (target + (a - target) / 10) low high
  rw [constrain_id _ _ _ hm1 hm2] at hc
  have hmT : |target + (a - target) / 10 - target| = 1 / 10 * |a - target| := by
    have : target + (a - target) / 10 - target = 1 / 10 * (a - target) := by ring
    rw [this, abs_mul]
    norm_num
  constructor
  · rw [← hmT]
    refine le_trans (abs_abs_sub_abs_le_abs_sub _ _) ?_
    have : constrain (lerpDouble a target SMOOTHING_DOUBLE) low high - target -
        (target + (a - target) / 10 - target) =
        constrain (lerpDouble a target SMOOTHING_DOUBLE) low high -
          (target + (a - target) / 10) := by ring
    rw [this]
    exact le_trans hc hn
  · rw [← hmT]
    have : lerpDouble a target SMOOTHING_DOUBLE - target =
        (lerpDouble a target SMOOTHING_DOUBLE - (target + (a - target) / 10)) +
          (target + (a - target) / 10 - target) := by ring
    rw [this]
    refine le_trans (abs_add _ _) ?_
    linarith

theorem roundDouble_abs_lt_two (y : ℚ) (h : |y| ≤ 1) : |roundDouble y| < 2 := by
  have e := roundDouble_error_le y 1 h
  rw [abs_le] at e h
  rw [abs_lt]
  norm_num at e
  constructor <;> linarith [e.1, e.2, h.1, h.2]

theorem abs_le_of_roundDouble_lt_two (y : ℚ) (h : |roundDouble y| < 2) : |y| ≤ 3 := by
  have e := roundDouble_error y
  have hy := abs_nonneg y
  have h1 : |y| ≤ |roundDouble y| + |roundDouble y - y| := by
    have : y = roundDouble y - (roundDouble y - y) := by ring
    calc |y| = |roundDouble y - (roundDouble y - y)| := by rw [← this]
      _ ≤ |roundDouble y| + |roundDouble y - y| := abs_sub _ _
  have h2 : |y| / 2 ^ 53 ≤ |y| / 2 := by
    apply div_le_div_of_nonneg_left hy (by norm_num) (by norm_num)
  linarith

theorem hasReachedTargetDouble_iff (s : Sketch) :
    hasReachedTargetDouble s = true ↔
      |roundDouble (s.horizontalAngle - s.targetHorizontalAngle)| < 2 ∧
        |roundDouble (s.verticalAngle - s.targetVerticalAngle)| < 2 := by
  simp [hasReachedTargetDouble, TARGET_REACHED_THRESHOLD]

theorem drawAvoidingDouble_frame (t : Tick) (s : Sketch) :
    (drawAvoidingDouble t s).horizontalAngle =
        lerpDouble s.horizontalAngle s.targetHorizontalAngle SMOOTHING_DOUBLE ∧
      (drawAvoidingDouble t s).verticalAngle =
        lerpDouble s.verticalAngle s.targetVerticalAngle SMOOTHING_DOUBLE ∧
      (drawAvoidingDouble t s).targetHorizontalAngle = s.targetHorizontalAngle ∧
      (drawAvoidingDouble t s).targetVerticalAngle = s.targetVerticalAngle := by
  simp only [drawAvoidingDouble, moveTowardTargetDouble]
  split_ifs <;> simp

theorem drawAvoidingDouble_timer (t : Tick) (s : Sketch)
    (hA : s.currentState = STATE.AVOIDING)
    (hR : hasReachedTargetDouble (moveTowardTargetDouble s) = true)
    (hne : s.targetReachedTime ≠ 0)
    (hA' : (drawAvoidingDouble t s).currentState = STATE.AVOIDING) :
    (drawAvoidingDouble t s).targetReachedTime = s.targetReachedTime := by
  have e1 : (moveTowardTargetDouble s).currentState = STATE.AVOIDING := hA
  have e2 : (moveTowardTargetDouble s).targetReachedTime = s.targetReachedTime := rfl
  simp only [drawAvoidingDouble] at hA' ⊢
  split_ifs at hA' ⊢ <;> simp_all

theorem avoidingFrameDouble_frame (t : Tick) (s : Sketch) :
    (avoidingFrameDouble t s).horizontalAngle =
        constrain (lerpDouble s.horizontalAngle s.targetHorizontalAngle SMOOTHING_DOUBLE)
          HORIZONTAL_MIN HORIZONTAL_MAX ∧
      (avoidingFrameDouble t s).verticalAngle =
        constrain (lerpDouble s.verticalAngle s.targetVerticalAngle SMOOTHING_DOUBLE)
          VERTICAL_MIN VERTICAL_MAX ∧
      (avoidingFrameDouble t s).targetHorizontalAngle = s.targetHorizontalAngle ∧
      (avoidingFrameDouble t s).targetVerticalAngle = s.targetVerticalAngle ∧
      (avoidingFrameDouble t s).currentState = (drawAvoidingDouble t s).currentState ∧
      (avoidingFrameDouble t s).targetReachedTime = (drawAvoidingDouble t s).targetReachedTime := by
  obtain ⟨a1, a2, a3, a4⟩ := drawAvoidingDouble_frame t s
  simp only [avoidingFrameDouble, clampAngles, a1, a2, a3, a4, and_self]

theorem avoidingFrameDouble_inBounds (t : Tick) (s : Sketch) (hT : TargetInBounds s) :
    PoseInBounds (avoidingFrameDouble t s) ∧ TargetInBounds (avoidingFrameDouble t s) := by
  obtain ⟨f1, f2, f3, f4, -, -⟩ := avoidingFrameDouble_frame t s
  simp only [PoseInBounds, TargetInBounds, f1, f2, f3, f4]
  exact ⟨⟨constrain_bounds _ _ _ (by norm_num [HORIZONTAL_MIN, HORIZONTAL_MAX]),
    constrain_bounds _ _ _ (by norm_num [VERTICAL_MIN, VERTICAL_MAX])⟩, hT⟩

/-- A pose within 9 of the target on both axes is found within the threshold by the test
of the next frame, and is within the threshold after that frame. -/
theorem reached_of_close_double (t : Tick) (s : Sketch) (hP : PoseInBounds s)
    (hT : TargetInBounds s)
    (hh : |s.horizontalAngle - s.targetHorizontalAngle| ≤ 9)
    (hv : |s.verticalAngle - s.targetVerticalAngle| ≤ 9) :
    hasReachedTargetDouble (moveTowardTargetDouble s) = true ∧
      hasReachedTargetDouble (avoidingFrameDouble t s) = true := by
  obtain ⟨f1, f2, f3, f4, -, -⟩ := avoidingFrameDouble_frame t s
  obtain ⟨x1, x2⟩ := axis_step_double s.horizontalAngle s.targetHorizontalAngle
    HORIZONTAL_MIN HORIZONTAL_MAX (by norm_num [HORIZONTAL_MIN]) (by norm_num [HORIZONTAL_MAX])
    hP.1 hT.1
  obtain ⟨y1, y2⟩ := axis_step_double s.verticalAngle s.targetVerticalAngle
    VERTICAL_MIN VERTICAL_MAX (by norm_num [VERTICAL_MIN]) (by norm_num [VERTICAL_MAX])
    hP.2 hT.2
  rw [abs_le] at x1 y1
  norm_num at x1 x2 y1 y2
  constructor
  · rw [hasReachedTargetDouble_iff]
    simp only [moveTowardTargetDouble]
    exact ⟨roundDouble_abs_lt_two _ (by linarith), roundDouble_abs_lt_two _ (by linarith)⟩
  · rw [hasReachedTargetDouble_iff, f1, f2, f3, f4]
    exact ⟨roundDouble_abs_lt_two _ (by linarith [x1.2]),
      roundDouble_abs_lt_two _ (by linarith [y1.2])⟩

/-- With the hold timer unset, a frame drawn while AVOIDING stays in AVOIDING. -/
theorem drawAvoidingDouble_unset (t : Tick) (s : Sketch)
    (hA : s.currentState = STATE.AVOIDING) (h0 : s.targetReachedTime = 0) :
    (drawAvoidingDouble t s).currentState = STATE.AVOIDING := by
  have e1 : (moveTowardTargetDouble s).currentState = STATE.AVOIDING := hA
  have e2 : (moveTowardTargetDouble s).targetReachedTime = 0 := h0
  simp only [drawAvoidingDouble]
  split_ifs <;> simp_all

/-! ## The claims -/

/-- C1 (clamping invariant): whatever the state, the clock and the other inputs of the
frame, after one call of `draw` the pose satisfies `50 ≤ horizontalAngle ≤ 130` and
`0 ≤ verticalAngle ≤ 35`; hence the same holds in every state reachable from the initial
state by any sequence of calls (`draw`, `gotFaces` and the serial-port handlers). -/
theorem draw_clamps_pose (sin : ℚ → ℚ) :
    (∀ (t : Tick) (s : Sketch),
        (50 ≤ (draw sin t s).horizontalAngle ∧ (draw sin t s).horizontalAngle ≤ 130) ∧
          (0 ≤ (draw sin t s).verticalAngle ∧ (draw sin t s).verticalAngle ≤ 35)) ∧
      ∀ s : Sketch, Reachable sin s →
        (50 ≤ s.horizontalAngle ∧ s.horizontalAngle ≤ 130) ∧
          (0 ≤ s.verticalAngle ∧ s.verticalAngle ≤ 35) := by
  refine ⟨fun t s => draw_poseInBounds sin t s, ?_⟩
  rintro s ⟨events, rfl⟩
  refine run_invariant sin PoseInBounds (step_poseInBounds sin) events initial ?_
  norm_num [PoseInBounds, initial, HORIZONTAL_MIN, HORIZONTAL_MAX, VERTICAL_MIN, VERTICAL_MAX]

/-- Witness of C1: the state after a detection and one frame is reachable and its pose
is within the limits. -/
theorem draw_clamps_pose_witness :
    Reachable sampleSin
        (run sampleSin initial [Event.gotFaces [faceUpperLeft], Event.draw sampleTick]) ∧
      ((50 ≤ (run sampleSin initial
            [Event.gotFaces [faceUpperLeft], Event.draw sampleTick]).horizontalAngle ∧
          (run sampleSin initial
            [Event.gotFaces [faceUpperLeft], Event.draw sampleTick]).horizontalAngle ≤ 130) ∧
        (0 ≤ (run sampleSin initial
            [Event.gotFaces [faceUpperLeft], Event.draw sampleTick]).verticalAngle ∧
          (run sampleSin initial
            [Event.gotFaces [faceUpperLeft], Event.draw sampleTick]).verticalAngle ≤ 35)) :=
  ⟨⟨_, rfl⟩, (draw_clamps_pose sampleSin).2 _ ⟨_, rfl⟩⟩

/-- C2 (avoidance away from the extremes): in the 640x480 frame, when the current pose has
`70 < horizontalAngle < 110` and `10 < verticalAngle < 25`, `calculateAvoidancePosition`
sets the horizontal target to 130 if `faceX < 320` and to 50 otherwise, and the vertical
target to 0 if `faceY < 240` and to 35 otherwise; so a face centred at (319, 239) gives
the target (130, 0) and one centred at (321, 241) gives (50, 35). -/
theorem calculateAvoidancePosition_away_from_extremes (faceX faceY faceSize : ℚ) (s : Sketch)
    (hH : 70 < s.horizontalAngle ∧ s.horizontalAngle < 110)
    (hV : 10 < s.verticalAngle ∧ s.verticalAngle < 25) :
    ((calculateAvoidancePosition faceX faceY faceSize s).targetHorizontalAngle =
        (if faceX < 320 then 130 else 50) ∧
      (calculateAvoidancePosition faceX faceY faceSize s).targetVerticalAngle =
        (if faceY < 240 then 0 else 35)) ∧
    ((calculateAvoidancePosition 319 239 faceSize s).targetHorizontalAngle = 130 ∧
      (calculateAvoidancePosition 319 239 faceSize s).targetVerticalAngle = 0) ∧
    ((calculateAvoidancePosition 321 241 faceSize s).targetHorizontalAngle = 50 ∧
      (calculateAvoidancePosition 321 241 faceSize s).targetVerticalAngle = 35) := by
  have h1 : ¬ (110 ≤ s.horizontalAngle) := not_le.mpr hH.2
  have h2 : ¬ (s.horizontalAngle ≤ 70) := not_le.mpr hH.1
  have h3 : ¬ (25 ≤ s.verticalAngle) := not_le.mpr hV.2
  have h4 : ¬ (s.verticalAngle ≤ 10) := not_le.mpr hV.1
  simp only [calculateAvoidancePosition_targetH, calculateAvoidancePosition_targetV,
    if_neg h1, if_neg h2, if_neg h3, if_neg h4]
  norm_num

/-- Witness of C2: the pose (90, 20) is away from every extreme. -/
theorem calculateAvoidancePosition_away_from_extremes_witness :
    ((70 < midPose.horizontalAngle ∧ midPose.horizontalAngle < 110) ∧
      (10 < midPose.verticalAngle ∧ midPose.verticalAngle < 25)) ∧
    (((calculateAvoidancePosition 130 110 3600 midPose).targetHorizontalAngle =
        (if (130 : ℚ) < 320 then 130 else 50) ∧
      (calculateAvoidancePosition 130 110 3600 midPose).targetVerticalAngle =
        (if (110 : ℚ) < 240 then 0 else 35)) ∧
    ((calculateAvoidancePosition 319 239 3600 midPose).targetHorizontalAngle = 130 ∧
      (calculateAvoidancePosition 319 239 3600 midPose).targetVerticalAngle = 0) ∧
    ((calculateAvoidancePosition 321 241 3600 midPose).targetHorizontalAngle = 50 ∧
      (calculateAvoidancePosition 321 241 3600 midPose).targetVerticalAngle = 35)) :=
  ⟨by norm_num [midPose, initial],
    calculateAvoidancePosition_away_from_extremes 130 110 3600 midPose
      (by norm_num [midPose, initial]) (by norm_num [midPose, initial])⟩

/-- C3 (extreme-pose override): wherever the face is, `calculateAvoidancePosition` sets the
horizontal target to 50 when the current `horizontalAngle ≥ 110` and to 130 when it is
`≤ 70`, and the vertical target to 0 when the current `verticalAngle ≥ 25` and to 35 when
it is `≤ 10`; in particular at `horizontalAngle = 130` with a face left of the centre the
horizontal target is 50. -/
theorem calculateAvoidancePosition_extreme_override (faceX faceY faceSize : ℚ) (s : Sketch) :
    (110 ≤ s.horizontalAngle →
        (calculateAvoidancePosition faceX faceY faceSize s).targetHorizontalAngle = 50) ∧
      (s.horizontalAngle ≤ 70 →
        (calculateAvoidancePosition faceX faceY faceSize s).targetHorizontalAngle = 130) ∧
      (25 ≤ s.verticalAngle →
        (calculateAvoidancePosition faceX faceY faceSize s).targetVerticalAngle = 0) ∧
      (s.verticalAngle ≤ 10 →
        (calculateAvoidancePosition faceX faceY faceSize s).targetVerticalAngle = 35) ∧
      (s.horizontalAngle = 130 → faceX < 320 →
        (calculateAvoidancePosition faceX faceY faceSize s).targetHorizontalAngle = 50) := by
  simp only [calculateAvoidancePosition_targetH, calculateAvoidancePosition_targetV]
  refine ⟨fun h => if_pos h, fun h => ?_, fun h => if_pos h, fun h => ?_, fun h _ => ?_⟩
  · rw [if_neg (by linarith), if_pos h]
  · rw [if_neg (by linarith), if_pos h]
  · rw [if_pos (by linarith)]

/-- Witness of C3: from the corner (130, 35), a face left of and above the centre sends
the camera to (50, 0). -/
theorem calculateAvoidancePosition_extreme_override_witness :
    (110 ≤ cornerPose.horizontalAngle ∧ 25 ≤ cornerPose.verticalAngle ∧
      cornerPose.horizontalAngle = 130 ∧ (130 : ℚ) < 320) ∧
    (calculateAvoidancePosition 130 110 3600 cornerPose).targetHorizontalAngle = 50 ∧
    (calculateAvoidancePosition 130 110 3600 cornerPose).targetVerticalAngle = 0 ∧
    (calculateAvoidancePosition 130 110 3600 cornerPose).targetHorizontalAngle = 50 :=
  ⟨by norm_num [cornerPose, initial],
    (calculateAvoidancePosition_extreme_override 130 110 3600 cornerPose).1
      (by norm_num [cornerPose, initial]),
    (calculateAvoidancePosition_extreme_override 130 110 3600 cornerPose).2.2.1
      (by norm_num [cornerPose, initial]),
    (calculateAvoidancePosition_extreme_override 130 110 3600 cornerPose).2.2.2.2
      (by norm_num [cornerPose]) (by norm_num)⟩

/-- C4 (degenerate detections are tolerated): for every bounding box, whatever its four
components (zero width or height and coordinates outside the frame included), and every
pose, `gotFaces` called in state SEARCHING or SCANNING with a batch that starts with that
box returns a state whose target is one of the four corners: the horizontal target is 50
or 130 and the vertical target is 0 or 35. -/
theorem gotFaces_target_is_corner (box : Box) (rest : List Face) (s : Sketch)
    (h : s.currentState = STATE.SEARCHING ∨ s.currentState = STATE.SCANNING) :
    ((gotFaces ({ box := box } :: rest) s).targetHorizontalAngle = 50 ∨
        (gotFaces ({ box := box } :: rest) s).targetHorizontalAngle = 130) ∧
      ((gotFaces ({ box := box } :: rest) s).targetVerticalAngle = 0 ∨
        (gotFaces ({ box := box } :: rest) s).targetVerticalAngle = 35) := by
  rw [gotFaces_cons _ _ _ h]
  simp only [calculateAvoidancePosition_targetH, calculateAvoidancePosition_targetV]
  constructor
  · split_ifs <;> simp
  · split_ifs <;> simp

/-- Witness of C4: an empty box outside the frame, delivered while scanning. -/
theorem gotFaces_target_is_corner_witness :
    (scanningPose.currentState = STATE.SEARCHING ∨
      scanningPose.currentState = STATE.SCANNING) ∧
    (((gotFaces ({ box := faceDegenerate.box } :: []) scanningPose).targetHorizontalAngle = 50 ∨
        (gotFaces ({ box := faceDegenerate.box } :: []) scanningPose).targetHorizontalAngle
          = 130) ∧
      ((gotFaces ({ box := faceDegenerate.box } :: []) scanningPose).targetVerticalAngle = 0 ∨
        (gotFaces ({ box := faceDegenerate.box } :: []) scanningPose).targetVerticalAngle
          = 35)) :=
  ⟨Or.inr rfl, gotFaces_target_is_corner faceDegenerate.box [] scanningPose (Or.inr rfl)⟩

/-- C5 (no-detection timeout): from a state SEARCHING with `noFaceFrameCount = 0` and no
face on record, along any sequence of calls that deliver no detection the state is still
SEARCHING as long as fewer than 200 frames have been drawn, and the 200th frame sets the
state to SCANNING and `scanStartTime` to the clock reading of that frame. -/
theorem no_detection_timeout (sin : ℚ → ℚ) (s : Sketch) (events : List Event)
    (hS : s.currentState = STATE.SEARCHING) (hc : s.noFaceFrameCount = 0)
    (hf : s.faces = []) (he : ∀ e ∈ events, e.deliversDetection = false) :
    (drawCount events < 200 → (run sin s events).currentState = STATE.SEARCHING) ∧
      (drawCount events = 199 → ∀ t : Tick,
        (draw sin t (run sin s events)).currentState = STATE.SCANNING ∧
          (draw sin t (run sin s events)).scanStartTime = t.millis) := by
  constructor
  · intro hlt
    exact (run_searching_no_face sin events s hS hf he
      (by simp only [NO_FACE_TIMEOUT]; omega)).1
  · intro heq t
    obtain ⟨h1, h2, h3⟩ := run_searching_no_face sin events s hS hf he
      (by simp only [NO_FACE_TIMEOUT]; omega)
    exact draw_timeout sin t _ h1 h2 (by omega)

/-- Witness of C5: 199 frames from the initial state, then the 200th. -/
theorem no_detection_timeout_witness :
    (initial.currentState = STATE.SEARCHING ∧ initial.noFaceFrameCount = 0 ∧
      initial.faces = [] ∧ (∀ e ∈ quietFrames, e.deliversDetection = false) ∧
      drawCount quietFrames = 199) ∧
    (run sampleSin initial quietFrames).currentState = STATE.SEARCHING ∧
    (draw sampleSin sampleTick (run sampleSin initial quietFrames)).currentState
      = STATE.SCANNING ∧
    (draw sampleSin sampleTick (run sampleSin initial quietFrames)).scanStartTime
      = sampleTick.millis :=
  ⟨⟨rfl, rfl, rfl, quietFrames_quiet, quietFrames_drawCount⟩,
    (no_detection_timeout sampleSin initial quietFrames rfl rfl rfl quietFrames_quiet).1
      (by rw [quietFrames_drawCount]; decide),
    (no_detection_timeout sampleSin initial quietFrames rfl rfl rfl quietFrames_quiet).2
      quietFrames_drawCount sampleTick⟩

/-- C6 (hold then return): in state AVOIDING, with the target within the axis limits and
the hold timer unset (as in every reachable AVOIDING state before the pose first comes
within the threshold), let `first` be the first frame at which the pose is within the
threshold of the target on both axes, and `t0` its clock reading.  A frame's clock reading
is the time since the sketch started, so `t0` is not 0.  Then the state is still AVOIDING
after that frame and after every later call as long as all frames drawn have
`t - t0 < 1000`, and the frame at the first clock reading `t` with `t - t0 ≥ 1000` sets
`currentState = SEARCHING`, `noFaceFrameCount = 0` and `targetReachedTime = 0`. -/
theorem hold_then_return (sin : ℚ → ℚ) (s : Sketch) (first : Tick) (events : List Event)
    (hA : s.currentState = STATE.AVOIDING)
    (hT : (50 ≤ s.targetHorizontalAngle ∧ s.targetHorizontalAngle ≤ 130) ∧
      (0 ≤ s.targetVerticalAngle ∧ s.targetVerticalAngle ≤ 35))
    (h0 : s.targetReachedTime = 0)
    (hR : hasReachedTarget (moveTowardTarget s) = true)
    (hne : first.millis ≠ 0)
    (hlt : ∀ u : Tick, Event.draw u ∈ events → u.millis - first.millis < 1000) :
    (run sin (draw sin first s) events).currentState = STATE.AVOIDING ∧
      ∀ t : Tick, t.millis - first.millis ≥ 1000 →
        (draw sin t (run sin (draw sin first s) events)).currentState = STATE.SEARCHING ∧
          (draw sin t (run sin (draw sin first s) events)).noFaceFrameCount = 0 ∧
          (draw sin t (run sin (draw sin first s) events)).targetReachedTime = 0 := by
  have hH : Holding first.millis (run sin (draw sin first s) events) :=
    run_keeps_hold sin first.millis hne events _ (draw_starts_hold sin first s hA hT h0 hR) hlt
  exact ⟨hH.1, fun t ht => draw_ends_hold sin t _ first.millis hH hne ht⟩

/-- Witness of C6: the pose (126, 3) comes within the threshold of (130, 0) at clock
reading 1100, holds through a detection and a frame at 1500, and returns at 2100. -/
theorem hold_then_return_witness :
    (approachState.currentState = STATE.AVOIDING ∧ approachState.targetReachedTime = 0 ∧
      hasReachedTarget (moveTowardTarget approachState) = true ∧ (tickAt 1100).millis ≠ 0 ∧
      (tickAt 2100).millis - (tickAt 1100).millis ≥ 1000) ∧
    (run sampleSin (draw sampleSin (tickAt 1100) approachState)
        [Event.gotFaces [faceDegenerate], Event.draw (tickAt 1500)]).currentState
      = STATE.AVOIDING ∧
    (draw sampleSin (tickAt 2100) (run sampleSin (draw sampleSin (tickAt 1100) approachState)
        [Event.gotFaces [faceDegenerate], Event.draw (tickAt 1500)])).currentState
      = STATE.SEARCHING :=
  have hR : hasReachedTarget (moveTowardTarget approachState) = true := by
    rw [hasReachedTarget_iff]
    simp only [moveTowardTarget, lerp_smoothing_dist]
    norm_num [approachState, avoidStart, initial, abs_lt]
  have hne : (tickAt 1100).millis ≠ 0 := by norm_num [tickAt]
  have hge : (tickAt 2100).millis - (tickAt 1100).millis ≥ 1000 := by norm_num [tickAt]
  have hlt : ∀ u : Tick,
      Event.draw u ∈ [Event.gotFaces [faceDegenerate], Event.draw (tickAt 1500)] →
        u.millis - (tickAt 1100).millis < 1000 := by
    intro u hu
    simp only [List.mem_cons, List.mem_singleton, List.not_mem_nil, or_false, false_or,
      Event.draw.injEq, reduceCtorEq] at hu
    subst hu
    norm_num [tickAt]
  have hT : (50 ≤ approachState.targetHorizontalAngle ∧
      approachState.targetHorizontalAngle ≤ 130) ∧
      (0 ≤ approachState.targetVerticalAngle ∧ approachState.targetVerticalAngle ≤ 35) := by
    norm_num [approachState, avoidStart]
  ⟨⟨rfl, rfl, hR, hne, hge⟩,
    (hold_then_return sampleSin approachState (tickAt 1100) _ rfl hT rfl hR hne hlt).1,
    ((hold_then_return sampleSin approachState (tickAt 1100) _ rfl hT rfl hR hne hlt).2
      (tickAt 2100) hge).1⟩

/-- C7 (detection sampling by state): `gotFaces` called while `currentState = AVOIDING`
returns the state unchanged, whatever the batch; a non-empty batch delivered in SEARCHING
or SCANNING sets the target to the avoidance target computed from the box of its first
entry alone, sets `currentState = AVOIDING` and resets `noFaceFrameCount` to 0. -/
theorem gotFaces_sampling_by_state :
    (∀ (results : List Face) (s : Sketch),
        s.currentState = STATE.AVOIDING → gotFaces results s = s) ∧
      ∀ (face : Face) (rest : List Face) (s : Sketch),
        s.currentState = STATE.SEARCHING ∨ s.currentState = STATE.SCANNING →
        (gotFaces (face :: rest) s).targetHorizontalAngle =
            (calculateAvoidancePosition (face.box.x + face.box.width / 2)
              (face.box.y + face.box.height / 2) (face.box.width * face.box.height)
              s).targetHorizontalAngle ∧
          (gotFaces (face :: rest) s).targetVerticalAngle =
            (calculateAvoidancePosition (face.box.x + face.box.width / 2)
              (face.box.y + face.box.height / 2) (face.box.width * face.box.height)
              s).targetVerticalAngle ∧
          (gotFaces (face :: rest) s).currentState = STATE.AVOIDING ∧
          (gotFaces (face :: rest) s).noFaceFrameCount = 0 := by
  refine ⟨gotFaces_avoiding, fun face rest s h => ?_⟩
  rw [gotFaces_cons face rest s h]
  exact ⟨rfl, rfl, rfl, rfl⟩

/-- Witness of C7: the same batch is ignored in `avoidStart` and taken up in `initial`. -/
theorem gotFaces_sampling_by_state_witness :
    (avoidStart.currentState = STATE.AVOIDING ∧
      (initial.currentState = STATE.SEARCHING ∨ initial.currentState = STATE.SCANNING)) ∧
    gotFaces [faceDegenerate, faceUpperLeft] avoidStart = avoidStart ∧
    (gotFaces [faceDegenerate, faceUpperLeft] initial).currentState = STATE.AVOIDING ∧
    (gotFaces [faceDegenerate, faceUpperLeft] initial).noFaceFrameCount = 0 :=
  ⟨⟨rfl, Or.inl rfl⟩,
    gotFaces_sampling_by_state.1 [faceDegenerate, faceUpperLeft] avoidStart rfl,
    (gotFaces_sampling_by_state.2 faceDegenerate [faceUpperLeft] initial (Or.inl rfl)).2.2.1,
    (gotFaces_sampling_by_state.2 faceDegenerate [faceUpperLeft] initial (Or.inl rfl)).2.2.2⟩

/-- C8 (detection while scanning), amended: when the camera is SCANNING and a non-empty
batch of detections arrives, `gotFaces` itself moves the state to AVOIDING, and after the
next frame `currentState` is AVOIDING (not SEARCHING) and `noFaceFrameCount` is 0. -/
theorem detection_while_scanning (sin : ℚ → ℚ) (t : Tick) (face : Face) (rest : List Face)
    (s : Sketch) (hS : s.currentState = STATE.SCANNING) :
    (gotFaces (face :: rest) s).currentState = STATE.AVOIDING ∧
      (draw sin t (gotFaces (face :: rest) s)).currentState = STATE.AVOIDING ∧
      (draw sin t (gotFaces (face :: rest) s)).noFaceFrameCount = 0 := by
  obtain ⟨h1, h2, -⟩ := gotFaces_then_draw sin t face rest s (Or.inr hS)
  refine ⟨?_, h1, h2⟩
  rw [gotFaces_cons face rest s (Or.inr hS)]

/-- Witness of C8: a detection delivered to the camera that scans after 200 quiet frames. -/
theorem detection_while_scanning_witness :
    scanState.currentState = STATE.SCANNING ∧
      (gotFaces (faceUpperLeft :: []) scanState).currentState = STATE.AVOIDING ∧
      (draw sampleSin sampleTick (gotFaces (faceUpperLeft :: []) scanState)).currentState
        = STATE.AVOIDING ∧
      (draw sampleSin sampleTick (gotFaces (faceUpperLeft :: []) scanState)).noFaceFrameCount
        = 0 :=
  ⟨scanState_scanning.2,
    detection_while_scanning sampleSin sampleTick faceUpperLeft [] scanState
      scanState_scanning.2⟩

/-- Counterexample to C8 as stated: in the reachable SCANNING state `scanState`, after a
detection was delivered and the next frame has run, the state is not SEARCHING. -/
theorem scanning_detection_leads_to_avoiding :
    Reachable sampleSin scanState ∧ scanState.currentState = STATE.SCANNING ∧
      (draw sampleSin sampleTick (gotFaces [faceUpperLeft] scanState)).currentState
        ≠ STATE.SEARCHING := by
  refine ⟨scanState_scanning.1, scanState_scanning.2, ?_⟩
  rw [(gotFaces_then_draw sampleSin sampleTick faceUpperLeft [] scanState
    (Or.inr scanState_scanning.2)).1]
  decide

/-- C9 (detection while searching), amended: a frame drawn in SEARCHING with a face on
record only resets `noFaceFrameCount` to 0; it leaves `currentState = SEARCHING` and the
target unchanged.  The avoidance policy is invoked, the target set from it and AVOIDING
entered by `gotFaces`, at the moment a non-empty batch is delivered in SEARCHING. -/
theorem detection_while_searching (sin : ℚ → ℚ) (t : Tick) (s : Sketch)
    (hS : s.currentState = STATE.SEARCHING) :
    (s.faces ≠ [] →
        (draw sin t s).currentState = STATE.SEARCHING ∧
          (draw sin t s).targetHorizontalAngle = s.targetHorizontalAngle ∧
          (draw sin t s).targetVerticalAngle = s.targetVerticalAngle ∧
          (draw sin t s).noFaceFrameCount = 0) ∧
      ∀ (face : Face) (rest : List Face),
        (gotFaces (face :: rest) s).targetHorizontalAngle =
            (calculateAvoidancePosition (face.box.x + face.box.width / 2)
              (face.box.y + face.box.height / 2) (face.box.width * face.box.height)
              s).targetHorizontalAngle ∧
          (gotFaces (face :: rest) s).targetVerticalAngle =
            (calculateAvoidancePosition (face.box.x + face.box.width / 2)
              (face.box.y + face.box.height / 2) (face.box.width * face.box.height)
              s).targetVerticalAngle ∧
          (gotFaces (face :: rest) s).currentState = STATE.AVOIDING ∧
          (gotFaces (face :: rest) s).noFaceFrameCount = 0 := by
  refine ⟨fun hf => draw_searching_face sin t s hS hf, fun face rest => ?_⟩
  rw [gotFaces_cons face rest s (Or.inl hS)]
  exact ⟨rfl, rfl, rfl, rfl⟩

/-- Witness of C9: a frame drawn after the return to SEARCHING, with the old detection
still on record. -/
theorem detection_while_searching_witness :
    (returnedState.currentState = STATE.SEARCHING ∧ returnedState.faces ≠ []) ∧
      (draw sampleSin (tickAt 2200) returnedState).currentState = STATE.SEARCHING ∧
      (draw sampleSin (tickAt 2200) returnedState).targetHorizontalAngle
        = returnedState.targetHorizontalAngle ∧
      (draw sampleSin (tickAt 2200) returnedState).targetVerticalAngle
        = returnedState.targetVerticalAngle ∧
      (draw sampleSin (tickAt 2200) returnedState).noFaceFrameCount = 0 :=
  ⟨⟨rfl, by simp [returnedState]⟩,
    (detection_while_searching sampleSin (tickAt 2200) returnedState rfl).1
      (by simp [returnedState])⟩

/-- Counterexample to C9 as stated: `returnedState` is reachable, SEARCHING, and has a
face on record; the frame drawn in it stays in SEARCHING and keeps the horizontal target
130, where the avoidance policy applied to the recorded face would give 50. -/
theorem draw_searching_does_not_avoid :
    Reachable sampleSin returnedState ∧ returnedState.currentState = STATE.SEARCHING ∧
      returnedState.faces = [faceUpperLeft] ∧
      (draw sampleSin (tickAt 2200) returnedState).currentState ≠ STATE.AVOIDING ∧
      (draw sampleSin (tickAt 2200) returnedState).targetHorizontalAngle = 130 ∧
      (calculateAvoidancePosition (faceUpperLeft.box.x + faceUpperLeft.box.width / 2)
        (faceUpperLeft.box.y + faceUpperLeft.box.height / 2)
        (faceUpperLeft.box.width * faceUpperLeft.box.height)
        returnedState).targetHorizontalAngle = 50 := by
  obtain ⟨h1, h2, -, -⟩ := draw_searching_face sampleSin (tickAt 2200) returnedState rfl
    (by simp [returnedState])
  refine ⟨reachable_returnedState, rfl, rfl, ?_, ?_, ?_⟩
  · rw [h1]; decide
  · rw [h2]; rfl
  · rw [calculateAvoidancePosition_targetH]
    norm_num [returnedState]

/-- C10 (command throttle): `sendPositionsToArduino` hands a command to the serial port
if and only if `serialConnected` is true and `now - lastSerialSendTime > 50`; when it does,
the command is the only one written and `lastSerialSendTime` becomes `now`; when it does
not, nothing is written and the state, `lastSerialSendTime` included, is unchanged. -/
theorem sendPositionsToArduino_throttle (now hPos vPos : ℚ) (s : Sketch) :
    ((sendPositionsToArduino now hPos vPos s).written ≠ s.written ↔
        (s.serialConnected = true ∧ now - s.lastSerialSendTime > 50)) ∧
      ((s.serialConnected = true ∧ now - s.lastSerialSendTime > 50) →
        (sendPositionsToArduino now hPos vPos s).written = s.written ++ [command hPos vPos] ∧
          (sendPositionsToArduino now hPos vPos s).lastSerialSendTime = now) ∧
      (¬ (s.serialConnected = true ∧ now - s.lastSerialSendTime > 50) →
        (sendPositionsToArduino now hPos vPos s).written = s.written ∧
          (sendPositionsToArduino now hPos vPos s).lastSerialSendTime = s.lastSerialSendTime ∧
          sendPositionsToArduino now hPos vPos s = s) := by
  by_cases h : s.serialConnected = true ∧ now - s.lastSerialSendTime > SERIAL_SEND_INTERVAL
  · have h' : s.serialConnected = true ∧ now - s.lastSerialSendTime > 50 := h
    have e : sendPositionsToArduino now hPos vPos s =
        { s with written := s.written ++ [command hPos vPos], lastSerialSendTime := now } := by
      simp only [sendPositionsToArduino, if_pos h]
    rw [e]
    exact ⟨⟨fun _ => h', fun _ => append_singleton_ne_self _ _⟩, fun _ => ⟨rfl, rfl⟩,
      fun hn => absurd h' hn⟩
  · have h' : ¬ (s.serialConnected = true ∧ now - s.lastSerialSendTime > 50) := h
    have e : sendPositionsToArduino now hPos vPos s = s := by
      simp only [sendPositionsToArduino, if_neg h]
    rw [e]
    exact ⟨⟨fun hne => absurd rfl hne, fun hc => absurd hc h'⟩, fun hc => absurd hc h',
      fun _ => ⟨rfl, rfl, rfl⟩⟩

/-- Witness of C10: with the port open, a call at clock reading 51 writes and a call at
clock reading 50 does not. -/
theorem sendPositionsToArduino_throttle_witness :
    ((connectedState.serialConnected = true ∧
        (51 : ℚ) - connectedState.lastSerialSendTime > 50) ∧
      ¬ (connectedState.serialConnected = true ∧
        (50 : ℚ) - connectedState.lastSerialSendTime > 50)) ∧
    ((sendPositionsToArduino 51 90 30 connectedState).written =
        connectedState.written ++ [command 90 30] ∧
      (sendPositionsToArduino 51 90 30 connectedState).lastSerialSendTime = 51) ∧
    sendPositionsToArduino 50 90 30 connectedState = connectedState :=
  have h1 : connectedState.serialConnected = true ∧
      (51 : ℚ) - connectedState.lastSerialSendTime > 50 := by
    norm_num [connectedState, initial]
  have h2 : ¬ (connectedState.serialConnected = true ∧
      (50 : ℚ) - connectedState.lastSerialSendTime > 50) := by
    norm_num [connectedState, initial]
  ⟨⟨h1, h2⟩, (sendPositionsToArduino_throttle 51 90 30 connectedState).2.1 h1,
    ((sendPositionsToArduino_throttle 50 90 30 connectedState).2.2 h2).2.2⟩

/-- C11 (throttle rate bound): along every run (any calls, any clock readings, any
connection history, from any state) the commands written are exactly those listed by
`sendTimes`, any two of them are sent more than 50 ms apart, and every window of 1000 ms
contains at most 20 of them. -/
theorem throttle_rate_bound (sin : ℚ → ℚ) (s : Sketch) (events : List Event) :
    (run sin s events).written.length = s.written.length + (sendTimes sin s events).length ∧
      List.Pairwise (fun a b => b - a > 50) (sendTimes sin s events) ∧
      ∀ a : ℚ, sentInWindow a (sendTimes sin s events) ≤ 20 :=
  ⟨sendTimes_length sin events s, (sendTimes_spaced sin events s).2,
    fun a => spaced_window _ a (sendTimes_spaced sin events s).2⟩

/-- C12 (command encoding): for every pose the controller can send (`50 ≤ h ≤ 130`,
`0 ≤ v ≤ 35`) the `Math.floor` of `sendPositionsToArduino` equals truncation toward zero,
so the command is `H`, the truncated horizontal angle, `V`, the truncated vertical angle
and a newline; the pose (130, 35) is encoded as `H130V35` and a newline; and every command
written by a call made in a reachable state is the so encoded pose. -/
theorem command_encoding :
    (∀ h v : ℚ, 50 ≤ h ∧ h ≤ 130 → 0 ≤ v ∧ v ≤ 35 →
        Rat.floor h = truncate h ∧ Rat.floor v = truncate v ∧
          command h v = specCommand h v) ∧
      command 130 35 = "H130V35\n" ∧
      ∀ (sin : ℚ → ℚ) (s : Sketch) (e : Event), Reachable sin s →
        (step sin s e).written = s.written ∨
          (step sin s e).written = s.written ++
            [specCommand (step sin s e).horizontalAngle (step sin s e).verticalAngle] := by
  refine ⟨fun h v hh hv => ?_, command_130_35, fun sin s e hR =>
    step_written sin s e (reachable_poseInBounds sin s hR)⟩
  have h0 : (0 : ℚ) ≤ h := by linarith [hh.1]
  exact ⟨by simp only [truncate, if_pos h0], by simp only [truncate, if_pos hv.1],
    command_eq_specCommand h v h0 hv.1⟩

/-- Witness of C12: the corner pose (130, 35), and the opening of the port in the
initial state. -/
theorem command_encoding_witness :
    (((50 : ℚ) ≤ 130 ∧ (130 : ℚ) ≤ 130) ∧ ((0 : ℚ) ≤ 35 ∧ (35 : ℚ) ≤ 35) ∧
      Reachable sampleSin initial) ∧
    command 130 35 = specCommand 130 35 ∧
    ((step sampleSin initial (Event.portOpen 60)).written = initial.written ∨
      (step sampleSin initial (Event.portOpen 60)).written = initial.written ++
        [specCommand (step sampleSin initial (Event.portOpen 60)).horizontalAngle
          (step sampleSin initial (Event.portOpen 60)).verticalAngle]) :=
  ⟨⟨by norm_num, by norm_num, ⟨[], rfl⟩⟩,
    (command_encoding.1 130 35 (by norm_num) (by norm_num)).2.2,
    command_encoding.2.2 sampleSin initial (Event.portOpen 60) ⟨[], rfl⟩⟩

/-- C13 (scan generator): in every frame drawn while SCANNING the horizontal target is
`90 + 40 * sin(0.0005 * (now - scanStartTime))`, the value of the specification's
`computeScanTarget` at the time elapsed since SCANNING was entered; so two scans entered at
different clock readings produce the same target at the same elapsed time; the target is
90 at elapsed time 0 (as `sin 0 = 0`) and lies in [50, 130] (as `-1 ≤ sin x ≤ 1`). -/
theorem scan_generator (sin : ℚ → ℚ) :
    (∀ (t : Tick) (s : Sketch), s.currentState = STATE.SCANNING →
        (draw sin t s).targetHorizontalAngle =
            90 + 40 * sin (5 / 10000 * (t.millis - s.scanStartTime)) ∧
          (draw sin t s).targetHorizontalAngle =
            computeScanTarget sin (t.millis - s.scanStartTime)) ∧
      (∀ (t1 t2 : Tick) (s1 s2 : Sketch), s1.currentState = STATE.SCANNING →
        s2.currentState = STATE.SCANNING →
        t1.millis - s1.scanStartTime = t2.millis - s2.scanStartTime →
        (draw sin t1 s1).targetHorizontalAngle = (draw sin t2 s2).targetHorizontalAngle) ∧
      (sin 0 = 0 → ∀ (t : Tick) (s : Sketch), s.currentState = STATE.SCANNING →
        t.millis - s.scanStartTime = 0 → (draw sin t s).targetHorizontalAngle = 90) ∧
      ((∀ x : ℚ, -1 ≤ sin x ∧ sin x ≤ 1) → ∀ (t : Tick) (s : Sketch),
        s.currentState = STATE.SCANNING →
        50 ≤ (draw sin t s).targetHorizontalAngle ∧
          (draw sin t s).targetHorizontalAngle ≤ 130) := by
  have key : ∀ (t : Tick) (s : Sketch), s.currentState = STATE.SCANNING →
      (draw sin t s).targetHorizontalAngle =
        90 + 40 * sin ((t.millis - s.scanStartTime) * SCAN_SPEED) := by
    intro t s hS
    rw [(draw_scanning sin t s hS).1, map_scan]
  refine ⟨fun t s hS => ⟨?_, key t s hS⟩, fun t1 t2 s1 s2 h1 h2 he => ?_,
    fun h0 t s hS he => ?_, fun hb t s hS => ?_⟩
  · rw [key t s hS, SCAN_SPEED, mul_comm (t.millis - s.scanStartTime)]
  · rw [key t1 s1 h1, key t2 s2 h2, he]
  · rw [key t s hS, he, zero_mul, h0]
    norm_num
  · rw [key t s hS]
    have := hb ((t.millis - s.scanStartTime) * SCAN_SPEED)
    constructor <;> linarith [this.1, this.2]

/-- Witness of C13: two scans, entered at clock readings 0 and 2000, seen 500 ms after
their start, and the first of them at its start, with the stand-in `sampleSin`. -/
theorem scan_generator_witness :
    (scanningPose.currentState = STATE.SCANNING ∧ laterScan.currentState = STATE.SCANNING ∧
      (tickAt 500).millis - scanningPose.scanStartTime =
        (tickAt 2500).millis - laterScan.scanStartTime ∧
      sampleSin 0 = 0 ∧ (tickAt 0).millis - scanningPose.scanStartTime = 0) ∧
    (draw sampleSin (tickAt 500) scanningPose).targetHorizontalAngle =
      computeScanTarget sampleSin ((tickAt 500).millis - scanningPose.scanStartTime) ∧
    (draw sampleSin (tickAt 500) scanningPose).targetHorizontalAngle =
      (draw sampleSin (tickAt 2500) laterScan).targetHorizontalAngle ∧
    (draw sampleSin (tickAt 0) scanningPose).targetHorizontalAngle = 90 ∧
    (50 ≤ (draw sampleSin (tickAt 500) scanningPose).targetHorizontalAngle ∧
      (draw sampleSin (tickAt 500) scanningPose).targetHorizontalAngle ≤ 130) :=
  have he : (tickAt 500).millis - scanningPose.scanStartTime =
      (tickAt 2500).millis - laterScan.scanStartTime := by
    norm_num [tickAt, scanningPose, laterScan, initial]
  have h0 : (tickAt 0).millis - scanningPose.scanStartTime = 0 := by
    norm_num [tickAt, scanningPose, initial]
  ⟨⟨rfl, rfl, he, sampleSin_zero, h0⟩,
    ((scan_generator sampleSin).1 (tickAt 500) scanningPose rfl).2,
    (scan_generator sampleSin).2.1 (tickAt 500) (tickAt 2500) scanningPose laterScan rfl rfl he,
    (scan_generator sampleSin).2.2.1 sampleSin_zero (tickAt 0) scanningPose rfl h0,
    (scan_generator sampleSin).2.2.2 sampleSin_bounds (tickAt 500) scanningPose rfl⟩

/-- C14 (avoidance never re-selects the pose the controller is near): for every current
pose (within the limits or not) and every face position, the target set by
`calculateAvoidancePosition` is more than 20 away from the current horizontal angle and
more than 10 away from the current vertical angle; so `hasReachedTarget` is false right
after every entry into AVOIDING made by `gotFaces`. -/
theorem avoidance_never_reselects (faceX faceY faceSize : ℚ) (s : Sketch) :
    (20 < |s.horizontalAngle -
        (calculateAvoidancePosition faceX faceY faceSize s).targetHorizontalAngle| ∧
      10 < |s.verticalAngle -
        (calculateAvoidancePosition faceX faceY faceSize s).targetVerticalAngle|) ∧
    ∀ (face : Face) (rest : List Face),
      s.currentState = STATE.SEARCHING ∨ s.currentState = STATE.SCANNING →
      (gotFaces (face :: rest) s).currentState = STATE.AVOIDING ∧
        hasReachedTarget (gotFaces (face :: rest) s) = false := by
  refine ⟨⟨avoidance_target_far _ _ _ s, avoidance_target_far_vertical _ _ _ s⟩,
    fun face rest h => ?_⟩
  rw [← Bool.not_eq_true, hasReachedTarget_iff, gotFaces_cons face rest s h]
  refine ⟨rfl, fun hlt => ?_⟩
  have := avoidance_target_far (face.box.x + face.box.width / 2)
    (face.box.y + face.box.height / 2) (face.box.width * face.box.height) s
  linarith [hlt.1]

/-- Witness of C14: the detection `faceUpperLeft` taken up in the initial state. -/
theorem avoidance_never_reselects_witness :
    (initial.currentState = STATE.SEARCHING ∨ initial.currentState = STATE.SCANNING) ∧
    (gotFaces (faceUpperLeft :: []) initial).currentState = STATE.AVOIDING ∧
    hasReachedTarget (gotFaces (faceUpperLeft :: []) initial) = false :=
  ⟨Or.inl rfl, (avoidance_never_reselects 0 0 0 initial).2 faceUpperLeft [] (Or.inl rfl)⟩

/-- C15 (scanning elevation is effectively V_MAX): from a vertical angle `v` with
`0 ≤ v ≤ 35`, a frame drawn while SCANNING sets the vertical target to 45 and the vertical
angle to `min(35, v + 0.45 * (45 - v))`, which is not below `v`; after three or more
consecutive frames drawn while SCANNING the vertical angle is exactly 35. -/
theorem scanning_elevation (sin : ℚ → ℚ) (s : Sketch)
    (hS : s.currentState = STATE.SCANNING)
    (hv : 0 ≤ s.verticalAngle ∧ s.verticalAngle ≤ 35) :
    (∀ t : Tick,
        (draw sin t s).verticalAngle =
            min 35 (s.verticalAngle + 45 / 100 * (45 - s.verticalAngle)) ∧
          s.verticalAngle ≤ (draw sin t s).verticalAngle ∧
          (draw sin t s).targetVerticalAngle = 45) ∧
      (s.faces = [] → ∀ ticks : List Tick, 3 ≤ ticks.length →
        (run sin s (ticks.map Event.draw)).verticalAngle = 35) := by
  constructor
  · intro t
    obtain ⟨-, k2, k3, -⟩ := draw_scanning sin t s hS
    rw [k2, k3, scan_vertical_step _ hv.1]
    refine ⟨rfl, le_min hv.2 ?_, rfl⟩
    linarith [hv.2]
  · intro hf ticks hlen
    match ticks, hlen with
    | t1 :: t2 :: t3 :: rest, _ =>
      obtain ⟨h1, h2, h3⟩ := three_frames_to_top sin t1 t2 t3 s hS hf hv.1
      exact run_scanning_top sin rest _ h1 h2 h3

/-- Witness of C15: a scan that starts with the camera looking down, at (90, 0). -/
theorem scanning_elevation_witness :
    (lowScan.currentState = STATE.SCANNING ∧
      (0 ≤ lowScan.verticalAngle ∧ lowScan.verticalAngle ≤ 35) ∧ lowScan.faces = [] ∧
      3 ≤ [tickAt 100, tickAt 200, tickAt 300].length) ∧
    (draw sampleSin (tickAt 100) lowScan).verticalAngle =
      min 35 (lowScan.verticalAngle + 45 / 100 * (45 - lowScan.verticalAngle)) ∧
    (run sampleSin lowScan
      ([tickAt 100, tickAt 200, tickAt 300].map Event.draw)).verticalAngle = 35 :=
  have hv : 0 ≤ lowScan.verticalAngle ∧ lowScan.verticalAngle ≤ 35 := by
    norm_num [lowScan, scanningPose]
  ⟨⟨rfl, hv, rfl, by decide⟩,
    ((scanning_elevation sampleSin lowScan rfl hv).1 (tickAt 100)).1,
    (scanning_elevation sampleSin lowScan rfl hv).2 rfl _ (by decide)⟩

/-- C16 (the hold timer is unset outside AVOIDING): in every reachable state,
`currentState ≠ AVOIDING` implies `targetReachedTime = 0`; and a frame drawn while
AVOIDING at which the pose is not within the threshold of the target sets
`targetReachedTime` to 0. -/
theorem hold_timer_unset_outside_avoiding (sin : ℚ → ℚ) :
    (∀ s : Sketch, Reachable sin s → s.currentState ≠ STATE.AVOIDING →
        s.targetReachedTime = 0) ∧
      ∀ (t : Tick) (s : Sketch), s.currentState = STATE.AVOIDING →
        hasReachedTarget (moveTowardTarget s) = false →
        (draw sin t s).targetReachedTime = 0 := by
  refine ⟨reachable_timer_unset sin, fun t s hA hN => ?_⟩
  obtain ⟨-, -, -, -, -, -, k7⟩ := draw_frame sin t s
  rw [k7, stateMachine_avoiding sin t s hA]
  exact (drawAvoiding_timer t s hA).2.1 hN

/-- Witness of C16: the state after the return to SEARCHING, and the first frame of an
avoidance. -/
theorem hold_timer_unset_outside_avoiding_witness :
    (Reachable sampleSin returnedState ∧ returnedState.currentState ≠ STATE.AVOIDING ∧
      avoidStart.currentState = STATE.AVOIDING ∧
      hasReachedTarget (moveTowardTarget avoidStart) = false) ∧
    returnedState.targetReachedTime = 0 ∧
    (draw sampleSin (tickAt 1000) avoidStart).targetReachedTime = 0 :=
  have hN : hasReachedTarget (moveTowardTarget avoidStart) = false := by
    rw [← Bool.not_eq_true, hasReachedTarget_iff]
    simp only [moveTowardTarget, lerp_smoothing_dist]
    norm_num [avoidStart, initial, abs_lt]
  ⟨⟨reachable_returnedState, by decide, rfl, hN⟩,
    (hold_timer_unset_outside_avoiding sampleSin).1 returnedState reachable_returnedState
      (by decide),
    (hold_timer_unset_outside_avoiding sampleSin).2 (tickAt 1000) avoidStart rfl hN⟩

/-- C19 (the transition from SCANNING to SEARCHING in `draw` is unreachable): in every
reachable state, `currentState = SCANNING` implies that `faces` is empty; so a frame drawn
in such a state leaves it SCANNING, and the only call that leaves SCANNING is `gotFaces`
with a non-empty batch, which goes to AVOIDING. -/
theorem scanning_left_only_by_gotFaces (sin : ℚ → ℚ) (s : Sketch) (hR : Reachable sin s)
    (hS : s.currentState = STATE.SCANNING) :
    s.faces = [] ∧ (∀ t : Tick, (draw sin t s).currentState = STATE.SCANNING) ∧
      ∀ e : Event, (step sin s e).currentState = STATE.SCANNING ∨
        ((∃ (face : Face) (rest : List Face), e = Event.gotFaces (face :: rest)) ∧
          (step sin s e).currentState = STATE.AVOIDING) := by
  have hf := reachable_scanning_no_face sin s hR hS
  have hd : ∀ t : Tick, (draw sin t s).currentState = STATE.SCANNING := by
    intro t
    rw [(draw_scanning sin t s hS).2.2.2.2.1, hf]
    rfl
  refine ⟨hf, hd, fun e => ?_⟩
  cases e with
  | draw t => exact Or.inl (hd t)
  | gotFaces results =>
    cases results with
    | nil =>
      left
      simp [step, gotFaces, hS]
    | cons face rest =>
      right
      refine ⟨⟨face, rest, rfl⟩, ?_⟩
      simp only [step, gotFaces_cons face rest s (Or.inr hS)]
  | portOpen millis =>
    left
    simp only [step, portOpen, (sendPositionsToArduino_frame _ _ _ _).1]
    exact hS
  | portClose => exact Or.inl hS
  | serialError => exact Or.inl hS

/-- Witness of C19: the camera that scans after 200 quiet frames. -/
theorem scanning_left_only_by_gotFaces_witness :
    (Reachable sampleSin scanState ∧ scanState.currentState = STATE.SCANNING) ∧
    scanState.faces = [] ∧
    (draw sampleSin sampleTick scanState).currentState = STATE.SCANNING :=
  ⟨scanState_scanning,
    (scanning_left_only_by_gotFaces sampleSin scanState scanState_scanning.1
      scanState_scanning.2).1,
    (scanning_left_only_by_gotFaces sampleSin scanState scanState_scanning.1
      scanState_scanning.2).2.1 sampleTick⟩

/-- C17 (the target-reached test on the clamped pose): in every reachable state with
`currentState = AVOIDING` the target lies within the axis limits, so the smoothed pose
lies within [50, 130] x [0, 35], the clamp leaves it unchanged, `hasReachedTarget` gives
the same answer before and after the clamp, and the tick of `draw`, which tests before
clamping, produces the state of the specification's tick, which tests the clamped pose. -/
theorem reached_test_on_clamped_pose (sin : ℚ → ℚ) (s : Sketch) (hR : Reachable sin s)
    (hA : s.currentState = STATE.AVOIDING) :
    ((50 ≤ s.targetHorizontalAngle ∧ s.targetHorizontalAngle ≤ 130) ∧
        (0 ≤ s.targetVerticalAngle ∧ s.targetVerticalAngle ≤ 35)) ∧
      ((50 ≤ (moveTowardTarget s).horizontalAngle ∧
          (moveTowardTarget s).horizontalAngle ≤ 130) ∧
        (0 ≤ (moveTowardTarget s).verticalAngle ∧
          (moveTowardTarget s).verticalAngle ≤ 35)) ∧
      clampAngles (moveTowardTarget s) = moveTowardTarget s ∧
      hasReachedTarget (clampAngles (moveTowardTarget s)) =
        hasReachedTarget (moveTowardTarget s) ∧
      ∀ t : Tick, clampAngles (stateMachine sin t s) = avoidingTickSpec t s := by
  have hT := reachable_avoiding_targetInBounds sin s hR hA
  have hP := reachable_poseInBounds sin s hR
  have hm := moveTowardTarget_inBounds s hP hT
  refine ⟨hT, hm, clampAngles_id _ hm, by rw [clampAngles_id _ hm], fun t => ?_⟩
  obtain ⟨e1, e2⟩ := drawAvoiding_eq_spec t s hP hT
  rw [stateMachine_avoiding sin t s hA, e1, e2]

/-- Witness of C17: the state one frame into an avoidance. -/
theorem reached_test_on_clamped_pose_witness :
    (Reachable sampleSin approachState ∧ approachState.currentState = STATE.AVOIDING) ∧
    clampAngles (moveTowardTarget approachState) = moveTowardTarget approachState ∧
    hasReachedTarget (clampAngles (moveTowardTarget approachState)) =
      hasReachedTarget (moveTowardTarget approachState) ∧
    clampAngles (stateMachine sampleSin (tickAt 1100) approachState) =
      avoidingTickSpec (tickAt 1100) approachState :=
  ⟨⟨reachable_approachState, rfl⟩,
    (reached_test_on_clamped_pose sampleSin approachState reachable_approachState rfl).2.2.1,
    (reached_test_on_clamped_pose sampleSin approachState reachable_approachState rfl).2.2.2.1,
    (reached_test_on_clamped_pose sampleSin approachState reachable_approachState rfl).2.2.2.2
      (tickAt 1100)⟩

/-- C18 (AVOIDING converges in two ticks and stays converged), amended: in double
arithmetic a frame drawn while AVOIDING with pose and target within the limits leaves the
distance between pose and target, on each axis, within `2 ^ (-42)` of a tenth of what it
was (not exactly a tenth); so after a first such frame the test of the second one finds
the pose within the threshold; and once the pose is within the threshold it is so at every
later frame drawn while AVOIDING, and a hold timer that is set keeps its value as long as
the state is AVOIDING. -/
theorem avoiding_converges_in_doubles (s : Sketch)
    (hA : s.currentState = STATE.AVOIDING)
    (hP : (50 ≤ s.horizontalAngle ∧ s.horizontalAngle ≤ 130) ∧
      (0 ≤ s.verticalAngle ∧ s.verticalAngle ≤ 35))
    (hT : (50 ≤ s.targetHorizontalAngle ∧ s.targetHorizontalAngle ≤ 130) ∧
      (0 ≤ s.targetVerticalAngle ∧ s.targetVerticalAngle ≤ 35)) :
    (∀ t : Tick,
        abs (|(avoidingFrameDouble t s).horizontalAngle -
              (avoidingFrameDouble t s).targetHorizontalAngle| -
            1 / 10 * |s.horizontalAngle - s.targetHorizontalAngle|) ≤ 1 / 2 ^ 42 ∧
          abs (|(avoidingFrameDouble t s).verticalAngle -
              (avoidingFrameDouble t s).targetVerticalAngle| -
            1 / 10 * |s.verticalAngle - s.targetVerticalAngle|) ≤ 1 / 2 ^ 42) ∧
      (∀ t1 t2 : Tick, (avoidingFrameDouble t1 s).currentState = STATE.AVOIDING →
        hasReachedTargetDouble (moveTowardTargetDouble (avoidingFrameDouble t1 s)) = true ∧
          hasReachedTargetDouble (avoidingFrameDouble t2 (avoidingFrameDouble t1 s)) = true) ∧
      (hasReachedTargetDouble s = true → ∀ t : Tick,
        hasReachedTargetDouble (moveTowardTargetDouble s) = true ∧
          hasReachedTargetDouble (avoidingFrameDouble t s) = true ∧
          (s.targetReachedTime ≠ 0 →
            (avoidingFrameDouble t s).currentState = STATE.AVOIDING →
            (avoidingFrameDouble t s).targetReachedTime = s.targetReachedTime)) := by
  have hP' : PoseInBounds s := hP
  have hT' : TargetInBounds s := hT
  have hdist : ∀ t : Tick,
      abs (|(avoidingFrameDouble t s).horizontalAngle -
            (avoidingFrameDouble t s).targetHorizontalAngle| -
          1 / 10 * |s.horizontalAngle - s.targetHorizontalAngle|) ≤ 1 / 2 ^ 42 ∧
        abs (|(avoidingFrameDouble t s).verticalAngle -
            (avoidingFrameDouble t s).targetVerticalAngle| -
          1 / 10 * |s.verticalAngle - s.targetVerticalAngle|) ≤ 1 / 2 ^ 42 := by
    intro t
    obtain ⟨f1, f2, f3, f4, -, -⟩ := avoidingFrameDouble_frame t s
    rw [f1, f2, f3, f4]
    exact ⟨(axis_step_double _ _ _ _ (by norm_num [HORIZONTAL_MIN])
        (by norm_num [HORIZONTAL_MAX]) hP'.1 hT'.1).1,
      (axis_step_double _ _ _ _ (by norm_num [VERTICAL_MIN])
        (by norm_num [VERTICAL_MAX]) hP'.2 hT'.2).1⟩
  refine ⟨hdist, fun t1 t2 _ => ?_, fun hR t => ?_⟩
  · obtain ⟨d1, d2⟩ := hdist t1
    obtain ⟨b1, b2⟩ := avoidingFrameDouble_inBounds t1 s hT'
    have hh : |s.horizontalAngle - s.targetHorizontalAngle| ≤ 80 := by
      rw [abs_le]; constructor <;> linarith [hP.1.1, hP.1.2, hT.1.1, hT.1.2]
    have hv : |s.verticalAngle - s.targetVerticalAngle| ≤ 35 := by
      rw [abs_le]; constructor <;> linarith [hP.2.1, hP.2.2, hT.2.1, hT.2.2]
    rw [abs_le] at d1 d2
    norm_num at d1 d2
    exact reached_of_close_double t2 _ b1 b2 (by linarith [d1.2]) (by linarith [d2.2])
  · rw [hasReachedTargetDouble_iff] at hR
    have hh := abs_le_of_roundDouble_lt_two _ hR.1
    have hv := abs_le_of_roundDouble_lt_two _ hR.2
    obtain ⟨r1, r2⟩ := reached_of_close_double t s hP' hT' (by linarith) (by linarith)
    refine ⟨r1, r2, fun hne hA' => ?_⟩
    obtain ⟨-, -, -, -, f5, f6⟩ := avoidingFrameDouble_frame t s
    rw [f5] at hA'
    rw [f6]
    exact drawAvoidingDouble_timer t s hA r1 hne hA'

/-- Witness of C18: the avoidance that starts in the initial state, towards (130, 0). -/
theorem avoiding_converges_in_doubles_witness :
    (avoidStart.currentState = STATE.AVOIDING ∧
      (avoidingFrameDouble (tickAt 1000) avoidStart).currentState = STATE.AVOIDING) ∧
    abs (|(avoidingFrameDouble (tickAt 1000) avoidStart).horizontalAngle -
          (avoidingFrameDouble (tickAt 1000) avoidStart).targetHorizontalAngle| -
        1 / 10 * |avoidStart.horizontalAngle - avoidStart.targetHorizontalAngle|)
      ≤ 1 / 2 ^ 42 ∧
    hasReachedTargetDouble
      (avoidingFrameDouble (tickAt 1100) (avoidingFrameDouble (tickAt 1000) avoidStart))
      = true :=
  have hP : (50 ≤ avoidStart.horizontalAngle ∧ avoidStart.horizontalAngle ≤ 130) ∧
      (0 ≤ avoidStart.verticalAngle ∧ avoidStart.verticalAngle ≤ 35) := by
    norm_num [avoidStart, initial]
  have hT : (50 ≤ avoidStart.targetHorizontalAngle ∧
      avoidStart.targetHorizontalAngle ≤ 130) ∧
      (0 ≤ avoidStart.targetVerticalAngle ∧ avoidStart.targetVerticalAngle ≤ 35) := by
    norm_num [avoidStart]
  have hA1 : (avoidingFrameDouble (tickAt 1000) avoidStart).currentState
      = STATE.AVOIDING := by
    rw [(avoidingFrameDouble_frame (tickAt 1000) avoidStart).2.2.2.2.1]
    exact drawAvoidingDouble_unset (tickAt 1000) avoidStart rfl rfl
  ⟨⟨rfl, hA1⟩, ((avoiding_converges_in_doubles avoidStart rfl hP hT).1 (tickAt 1000)).1,
    ((avoiding_converges_in_doubles avoidStart rfl hP hT).2.1 (tickAt 1000) (tickAt 1100)
      hA1).2⟩

/-- Counterexample to C18 as stated: from the pose (126, 3) one frame into the avoidance
towards (130, 0), the frame computes the vertical angle `lerp(3, 0, 0.9)` as the double
0.29999999999999982, so the vertical distance to the target is not 0.1 times the distance
3 before the frame. -/
theorem lerp_factor_not_exact_in_doubles :
    approachState.currentState = STATE.AVOIDING ∧
      ((50 ≤ approachState.horizontalAngle ∧ approachState.horizontalAngle ≤ 130) ∧
        (0 ≤ approachState.verticalAngle ∧ approachState.verticalAngle ≤ 35)) ∧
      ((50 ≤ approachState.targetHorizontalAngle ∧
          approachState.targetHorizontalAngle ≤ 130) ∧
        (0 ≤ approachState.targetVerticalAngle ∧ approachState.targetVerticalAngle ≤ 35)) ∧
      (avoidingFrameDouble (tickAt 1100) approachState).verticalAngle =
        337769972052787 / 2 ^ 50 ∧
      |(avoidingFrameDouble (tickAt 1100) approachState).verticalAngle -
          (avoidingFrameDouble (tickAt 1100) approachState).targetVerticalAngle| ≠
        1 / 10 * |approachState.verticalAngle - approachState.targetVerticalAngle| := by
  obtain ⟨-, f2, -, f4, -, -⟩ := avoidingFrameDouble_frame (tickAt 1100) approachState
  have hv : approachState.verticalAngle = 3 := rfl
  have hT : approachState.targetVerticalAngle = 0 := rfl
  have e : (avoidingFrameDouble (tickAt 1100) approachState).verticalAngle =
      337769972052787 / 2 ^ 50 := by
    rw [f2, hv, hT, lerpDouble_3_0, constrain_id _ _ _ (by norm_num [VERTICAL_MIN])
      (by norm_num [VERTICAL_MAX])]
  refine ⟨rfl, by norm_num [approachState, avoidStart, initial],
    by norm_num [approachState, avoidStart], e, ?_⟩
  rw [e, f4, hv, hT]
  norm_num [abs_of_pos]

/-- C20 (SEARCHING holds the camera still): in every reachable state with
`currentState = SEARCHING`, a frame leaves `horizontalAngle`, `verticalAngle`,
`targetHorizontalAngle`, `targetVerticalAngle` and `targetReachedTime` unchanged, and
`faces` and `serialConnected` as well; it can change only `noFaceFrameCount`,
`scanStartTime`, `currentState` and the throttle (`lastSerialSendTime` and the command
written). -/
theorem searching_holds_still (sin : ℚ → ℚ) (t : Tick) (s : Sketch) (hR : Reachable sin s)
    (hS : s.currentState = STATE.SEARCHING) :
    (draw sin t s).horizontalAngle = s.horizontalAngle ∧
      (draw sin t s).verticalAngle = s.verticalAngle ∧
      (draw sin t s).targetHorizontalAngle = s.targetHorizontalAngle ∧
      (draw sin t s).targetVerticalAngle = s.targetVerticalAngle ∧
      (draw sin t s).targetReachedTime = s.targetReachedTime ∧
      (draw sin t s).faces = s.faces ∧
      (draw sin t s).serialConnected = s.serialConnected := by
  obtain ⟨k1, k2, k3, k4, k5, k6, -, -⟩ := draw_searching sin t s hS
  have hP := reachable_poseInBounds sin s hR
  rw [k5, k6]
  exact ⟨constrain_id _ _ _ hP.1.1 hP.1.2, constrain_id _ _ _ hP.2.1 hP.2.2, k1, k2, k3, k4,
    draw_serialConnected sin t s⟩

/-- Witness of C20: a frame drawn after the return to SEARCHING. -/
theorem searching_holds_still_witness :
    (Reachable sampleSin returnedState ∧ returnedState.currentState = STATE.SEARCHING) ∧
    (draw sampleSin (tickAt 2200) returnedState).horizontalAngle
      = returnedState.horizontalAngle ∧
    (draw sampleSin (tickAt 2200) returnedState).verticalAngle
      = returnedState.verticalAngle :=
  ⟨⟨reachable_returnedState, rfl⟩,
    (searching_holds_still sampleSin (tickAt 2200) returnedState reachable_returnedState
      rfl).1,
    (searching_holds_still sampleSin (tickAt 2200) returnedState reachable_returnedState
      rfl).2.1⟩

end ParaDroid
